import Mathlib

/-!
# Verification of the assemblyline-core dispatcher

A shallow embedding of the dispatcher core of the repository:

* `src/dispatching/dispatcher.py` — the submission/file dispatch drivers
  (`dispatch_submission`, `dispatch_file`, `_find_results`,
  `finalize_submission`, `create_missing_file_error`);
* `src/al_core/dispatching/client.py` — the client facade
  (`service_finished`, `setup_watch_queue`, `outstanding_services`).

The backing dispatch table (`DispatchHash`), the scheduler and the watcher
modules belong to this repository but are not present in the sources; the
definitions that stand in for them are modelled from the specification and
carry a doc comment saying so.  External collaborators (redis queues, the
document stores, `uuid`, `json.dumps`, the odm layer) are modelled as pure
data: stores are association lists, queues are lists of pushed messages and
fresh ids come from a counter threaded through the state.

Machine details deliberately preserved from the source:

* `_find_results` compares the non-terminal error count with `>` (strictly
  greater), not `≥`;
* `create_missing_file_error` builds an error document but has no `return`
  statement, so its caller stores `None`;
* in `dispatch_submission`, a file at or beyond the extraction depth limit is
  skipped with `continue` *before* its result's score and classification are
  accumulated;
* the extracted-child file type in `dispatch_submission` (line 208) is looked
  up with the stale `file_hash` variable left over from the seeding loop over
  `submission.files` (the last submission file), not with `sub_file`;
* `service_finished` pushes the parent `FileTask` only when the remaining
  count returned by `finish` is `0`, and never pushes to the submission queue.

Vestigial statements in `dispatch_file` that reference attributes the class
never defines (`self.entries`, `self.completed`, `self._service_is_down`,
`Task`, `q`, `msg`, `log`) and the undefined names in `finalize_submission`
(`task`, `dispatcher.completed`, `dispatcher.watchers`, `Classification`) are
left-over fragments of the pre-refactor dispatcher; they are omitted here and
the surrounding intended control flow is embedded (for `finalize_submission`
the missing aggregation is modelled from the specification).
-/

namespace AlCore

/-- Status of one (file, service) cell of the dispatch table.
Modelled from the spec: `DispatchTable` cells are `Empty` (absent key),
`Dispatched{dispatched_at}`, `Finished{result_key, score, drop}`,
`FailedRecoverable{attempts}` or `FailedTerminal{error_key}`. -/
inductive StatusCell where
  | dispatched (time : Int)
  | finished (key : String) (score : Int) (drop : Bool)
  | failedRecoverable (attempts : Nat)
  | failedTerminal (errorKey : String)
deriving DecidableEq, Repr

/-- A file document of the file collection (`sha256`, `type`). -/
structure FileRec where
  sha256 : String
  type : String
deriving DecidableEq, Repr

/-- An entry of `submission.files`: a `File` odm object carrying a `sha256`
content hash (the source reads `file_hash.sha256` from it). -/
structure FileObj where
  sha256 : String
deriving DecidableEq, Repr

/-- A result document: `score`, `classification`, `drop_file`, the extracted
children (`extracted_files` / `response.extracted`, read as sha256 strings)
and the base used by the external `Result.build_key`. -/
structure ResultRec where
  score : Int
  classification : String
  dropFile : Bool
  extracted : List String
  keyBase : String
deriving DecidableEq, Repr

/-- An error document as `_find_results` queries it: `sid`, `file_hash`,
`service`, `catagory` (spelling as in the source's query strings) and the
`response.status` field. -/
structure ErrorRec where
  sid : String
  file_hash : String
  service : String
  catagory : String
  status : String
deriving DecidableEq, Repr

/-- A submission record, merging the fields the dispatcher reads
(`sid`, `files`, `params.ignore_filtering`, `params.completed_queue`,
`state`) with the aggregate fields `finalize_submission` writes. -/
structure SubmissionRec where
  sid : String
  files : List FileObj
  ignoreFiltering : Bool
  completedQueue : Option String
  state : String
  classification : String
  errorCount : Nat
  errorsField : List String
  fileCount : Nat
  resultsField : List ((String × String) × StatusCell)
  maxScore : Option Int
  completedAt : Int
deriving DecidableEq, Repr

/-- `FileTask` as declared in `src/dispatching/dispatcher.py`
(`sid`, `parent_hash`, `file_hash`, `file_type`, `depth`); `parent_hash` is
optional because `dispatch_submission` builds the task without it. -/
structure FileTask where
  sid : String
  parent_hash : Option String
  file_hash : String
  file_type : String
  depth : Nat
deriving DecidableEq, Repr

/-- The `FileTask` shape used by `src/al_core/dispatching/client.py`
(`sid`, `file_info`, `depth`, `parent_hash`); `file_info` is the looked-up
file record and may be the store's miss value. -/
structure ClientFileTask where
  sid : String
  file_info : Option FileRec
  depth : Nat
  parent_hash : Option String
deriving DecidableEq, Repr

/-- A message on the shared `dispatch-file` queue: either of the two
`FileTask` generations above. -/
inductive FileTaskMsg where
  | v1 (t : FileTask)
  | v2 (t : ClientFileTask)
deriving DecidableEq, Repr

/-- `ServiceTask` as declared in `src/dispatching/dispatcher.py`: the
`FileTask` fields plus `service_name` and the serialized `service_config`. -/
structure ServiceTask where
  sid : String
  parent_hash : Option String
  file_hash : String
  file_type : String
  depth : Nat
  service_name : String
  service_config : String
deriving DecidableEq, Repr

/-- The `ServiceTask` shape `service_finished` receives in
`src/al_core/dispatching/client.py`: it reads `sid`, `fileinfo.sha256`,
`service_name`, `depth` and `config_key`. -/
structure ClientServiceTask where
  sid : String
  fileinfo : FileRec
  service_name : String
  depth : Nat
  config_key : String
deriving DecidableEq, Repr

/-- A `WatchQueueMessage`: a `status` and an optional `cache_key`. -/
structure WatchMessage where
  status : String
  cache_key : Option String
deriving DecidableEq, Repr

/-- Modelled from the spec: the scheduler interface of the missing
`configuration.py` / `scheduler.py` modules — `build_schedule`,
`service_timeout`, `service_failure_limit`, `build_service_config` and
`build_result_key`, bundled as a record of pure functions. -/
structure Scheduler where
  buildSchedule : SubmissionRec → String → List (List String)
  serviceTimeout : String → Int
  serviceFailureLimit : String → Nat
  buildServiceConfig : String → SubmissionRec → String
  buildResultKey : String → String → String → String

/-- The configuration values the core reads:
`core.dispatcher.extraction_depth_limit`, `submission.max_extraction_depth`
and `core.dispatcher.timeout`. -/
structure CoreConfig where
  extractionDepthLimit : Nat
  maxExtractionDepth : Nat
  dispatcherTimeout : Int
deriving DecidableEq, Repr

/-- Modelled from the spec: `config_hash` of the missing `configuration.py`
module, a deterministic fingerprint of a serialized service config. -/
def config_hash (config : String) : String :=
  String.append "h:" config

/-- `json.dumps` applied to an already-serialized service config string;
the external serialization is modelled as the identity. -/
def jsonDumps (config : String) : String := config

/-- External `Result.build_key(task.config_key)` of the odm layer, modelled
as a deterministic combination of the result's key base and the config key. -/
def resultBuildKey (result : ResultRec) (configKey : String) : String :=
  String.append (String.append result.keyBase ".") configKey

/-- `service_queue_name` from `src/dispatching/dispatcher.py`. -/
def service_queue_name (service : String) : String :=
  String.append "service-queue-" service

/-- `reply_queue_name(prefix="D", suffix="WQ")`: the external fresh-name
generator, modelled from the fresh-id counter. -/
def replyQueueName (freshId : Nat) : String :=
  String.append (String.append "D-" (toString freshId)) "-WQ"

/-- `uuid.uuid4().hex`, modelled from the fresh-id counter. -/
def mkUuid (freshId : Nat) : String :=
  String.append "uuid-" (toString freshId)

/-- The whole observable state: the dispatch table of the submission under
consideration (cells, counters and schedule cache), the document stores, the
queues (as lists of pushed messages), the watcher set and watch queues, the
`dispatch.files_completed` counter and the fresh-id counter. -/
structure DState where
  cells : List ((String × String) × StatusCell)
  dispatchCount : Nat
  finishedCount : Nat
  schedulesCache : List (String × List (List String))
  resultsStore : List (String × ResultRec)
  errorsStore : List (String × Option ErrorRec)
  filesStore : List (String × FileRec)
  submissionsStore : List (String × SubmissionRec)
  fileQueue : List FileTaskMsg
  submissionQueue : List String
  serviceQueues : List (String × ServiceTask)
  watchQueues : List (String × List WatchMessage)
  watcherSet : List String
  completedPushes : List (String × SubmissionRec)
  filesCompleted : Nat
  freshId : Nat
deriving DecidableEq, Repr

/-- Store a document under a key: replace the value of an existing key,
append otherwise. -/
def saveAssoc {α : Type} (store : List (String × α)) (key : String) (doc : α) :
    List (String × α) :=
  if (store.lookup key).isSome then
    store.map (fun e => if e.1 = key then (key, doc) else e)
  else
    store ++ [(key, doc)]

/-- Write one (file, service) cell of the dispatch table. -/
def setCell (cells : List ((String × String) × StatusCell)) (file service : String)
    (cell : StatusCell) : List ((String × String) × StatusCell) :=
  ((file, service), cell) :: cells.filter (fun e => e.1 ≠ (file, service))

/-- A cell in a state that is never updated again. -/
def StatusCell.isTerminal : StatusCell → Bool
  | .finished _ _ _ => true
  | .failedTerminal _ => true
  | _ => false

/-- Modelled from the spec: `DispatchHash.finished(file, service)` returns
the result key of a `Finished` cell, the sentinel string for a cell that is
terminal with errors, and nothing otherwise. -/
def cellFinished : StatusCell → Option String
  | .finished key _ _ => some key
  | .failedTerminal _ => some "errors"
  | _ => none

/-- `finished` over the cell store. -/
def tableFinished (cells : List ((String × String) × StatusCell))
    (file service : String) : Option String :=
  (cells.lookup (file, service)).bind cellFinished

/-- Modelled from the spec: `DispatchHash.dropped(file, service)` — the
`drop` flag of a `Finished` cell, false otherwise. -/
def tableDropped (cells : List ((String × String) × StatusCell))
    (file service : String) : Bool :=
  match cells.lookup (file, service) with
  | some (.finished _ _ drop) => drop
  | _ => false

/-- Modelled from the spec: `DispatchHash.dispatch_time(file, service)` —
the timestamp of the current `Dispatched` cell, or 0 if not dispatched. -/
def tableDispatchTime (cells : List ((String × String) × StatusCell))
    (file service : String) : Int :=
  match cells.lookup (file, service) with
  | some (.dispatched t) => t
  | _ => 0

/-- The number of cells of this submission that are still not terminal. -/
def nonTerminalCount (cells : List ((String × String) × StatusCell)) : Nat :=
  (cells.filter (fun e => ¬ e.2.isTerminal)).length

/-- Modelled from the spec: `DispatchHash.finish(file, service, result_key,
score, drop)` — compare-and-set write of `Finished` (a no-op when the cell is
already terminal), incrementing `finished_count` and returning the number of
cells still not terminal. -/
def tableFinish (cells : List ((String × String) × StatusCell))
    (finishedCount : Nat) (file service key : String) (score : Int)
    (drop : Bool) : List ((String × String) × StatusCell) × Nat × Nat :=
  match cells.lookup (file, service) with
  | some cell =>
      if cell.isTerminal then (cells, finishedCount, nonTerminalCount cells)
      else
        let cells' := setCell cells file service (.finished key score drop)
        (cells', finishedCount + 1, nonTerminalCount cells')
  | none =>
      let cells' := setCell cells file service (.finished key score drop)
      (cells', finishedCount + 1, nonTerminalCount cells')

/-- Modelled from the spec: `DispatchHash.dispatch(file, service)` — set the
cell to `Dispatched{now}` and increment `dispatch_count`; a repeat call on an
already-dispatched cell only refreshes the timestamp. -/
def tableDispatch (cells : List ((String × String) × StatusCell))
    (dispatchCount : Nat) (file service : String) (now : Int) :
    List ((String × String) × StatusCell) × Nat :=
  match cells.lookup (file, service) with
  | some (.dispatched _) => (setCell cells file service (.dispatched now), dispatchCount)
  | _ => (setCell cells file service (.dispatched now), dispatchCount + 1)

/-- Modelled from the spec: `DispatchHash.all_finished()` —
`finished_count == dispatch_count` and no cell is empty within any file's
cached schedule. -/
def allFinished (cells : List ((String × String) × StatusCell))
    (dispatchCount finishedCount : Nat)
    (schedulesCache : List (String × List (List String))) : Bool :=
  finishedCount == dispatchCount &&
    schedulesCache.all (fun fs =>
      fs.2.all (fun stage =>
        stage.all (fun service => (cells.lookup (fs.1, service)).isSome)))

/-- The distinct files that currently have a status cell. -/
def tableFileList (cells : List ((String × String) × StatusCell)) : List String :=
  (cells.map (fun e => e.1.1)).eraseDups

/-- Modelled from the spec: `DispatchHash.all_results()` — the current status
cells grouped per file. -/
def allResults (cells : List ((String × String) × StatusCell)) :
    List (String × List (String × StatusCell)) :=
  (tableFileList cells).map (fun f =>
    (f, cells.filterMap (fun e =>
      if e.1.1 = f then some (e.1.2, e.2) else none)))

/-- Modelled from the spec: `status.is_error` of a status cell — true exactly
for a cell that failed terminally. -/
def StatusCell.is_error : StatusCell → Bool
  | .failedTerminal _ => true
  | _ => false

/-- Modelled from the spec: `status.key` of a status cell — the result key of
a `Finished` cell, the error key of a `FailedTerminal` cell. -/
def StatusCell.key : StatusCell → String
  | .finished key _ _ => key
  | .failedTerminal errorKey => errorKey
  | _ => ""

/-- Modelled from the spec: `status.drop` of a status cell. -/
def StatusCell.dropFlag : StatusCell → Bool
  | .finished _ _ drop => drop
  | _ => false

/-- Push one message to every queue registered in the watcher set
(`for w in self._get_watcher_list(sid).members(): w.push(msg)`). -/
def fanOut (watchQueues : List (String × List WatchMessage))
    (watcherSet : List String) (msg : WatchMessage) :
    List (String × List WatchMessage) :=
  watchQueues.map (fun q =>
    if watcherSet.contains q.1 then (q.1, q.2 ++ [msg]) else q)

/-- The child `FileTask` that `service_finished` pushes for one extracted
file: depth one more than the task's, `parent_hash` the hash of the file the
task ran on, `file_info` the looked-up file record. -/
def childFileTask (filesStore : List (String × FileRec))
    (task : ClientServiceTask) (sha : String) : ClientFileTask :=
  { sid := task.sid
    file_info := filesStore.lookup sha
    depth := task.depth + 1
    parent_hash := some task.fileinfo.sha256 }

/-- The `FileTask` that `service_finished` pushes for the parent file itself
(`file_info=task.fileinfo`, same depth, no parent hash). -/
def parentFileTask (task : ClientServiceTask) : ClientFileTask :=
  { sid := task.sid
    file_info := some task.fileinfo
    depth := task.depth
    parent_hash := none }

/-- `DispatchClient.service_finished(task, result)` from
`src/al_core/dispatching/client.py`: persist the result under
`result.build_key(task.config_key)`, mark the cell `Finished` in the dispatch
table, push a child `FileTask{depth+1, parent_hash}` for every extracted file
when `task.depth < max_extraction_depth`, push a `FileTask` for the parent
file when the remaining count returned by `finish` is `0`, and fan an `OK`
message out to the watch queues. -/
def service_finished (cfg : CoreConfig) (task : ClientServiceTask)
    (result : ResultRec) (st : DState) : DState :=
  let resultKey := resultBuildKey result task.config_key
  let results' := saveAssoc st.resultsStore resultKey result
  let fin := tableFinish st.cells st.finishedCount task.fileinfo.sha256
    task.service_name resultKey result.score result.dropFile
  let remaining := fin.2.2
  let childPushes :=
    if task.depth < cfg.maxExtractionDepth then
      result.extracted.map (fun sha => FileTaskMsg.v2 (childFileTask st.filesStore task sha))
    else []
  let parentPushes :=
    if remaining = 0 then [FileTaskMsg.v2 (parentFileTask task)] else []
  { st with
    resultsStore := results'
    cells := fin.1
    finishedCount := fin.2.1
    fileQueue := st.fileQueue ++ childPushes ++ parentPushes
    watchQueues := fanOut st.watchQueues st.watcherSet
      { status := "OK", cache_key := some resultKey } }

/-- The replay message `setup_watch_queue` builds for one current status
cell: `FAIL` with the cell's key when `status.is_error`, `OK` with the cell's
key otherwise. -/
def statusReplayMessage (cell : StatusCell) : WatchMessage :=
  if cell.is_error then { status := "FAIL", cache_key := some cell.key }
  else { status := "OK", cache_key := some cell.key }

/-- `DispatchClient.setup_watch_queue(sid)` from
`src/al_core/dispatching/client.py`: create a fresh reply queue whose first
message is `START`, register its name in the watcher set, then — when the
table has zero dispatched and zero finished cells — push `STOP` if the
submission is absent or completed and otherwise push `{sid}` to the
submission queue; when the table is not empty, replay every current status
cell into the new queue.  Returns the new queue's name and the new state. -/
def setup_watch_queue (sid : String) (st : DState) : String × DState :=
  let queueName := replyQueueName st.freshId
  let startMsgs : List WatchMessage := [{ status := "START", cache_key := none }]
  let st1 : DState :=
    { st with
      freshId := st.freshId + 1
      watchQueues := saveAssoc st.watchQueues queueName startMsgs
      watcherSet := queueName :: st.watcherSet }
  let stopMsgs : List WatchMessage :=
    startMsgs ++ [{ status := "STOP", cache_key := none }]
  if st.dispatchCount = 0 ∧ st.finishedCount = 0 then
    match st.submissionsStore.lookup sid with
    | none =>
        (queueName,
         { st1 with watchQueues := saveAssoc st1.watchQueues queueName stopMsgs })
    | some submission =>
        if submission.state = "completed" then
          (queueName,
           { st1 with watchQueues := saveAssoc st1.watchQueues queueName stopMsgs })
        else
          (queueName, { st1 with submissionQueue := st1.submissionQueue ++ [sid] })
  else
    let replay := ((allResults st.cells).map (fun fs =>
      fs.2.map (fun sv => statusReplayMessage sv.2))).flatten
    let replayMsgs := startMsgs ++ replay
    (queueName,
     { st1 with watchQueues := saveAssoc st1.watchQueues queueName replayMsgs })

/-- One stage walk of `outstanding_services`: for each service of the stage,
a file with a status is not counted (but may clear the rest of the schedule
when the status carries `drop`); a service with no status gets the file
counted against it. -/
def outstandingStage (statusValues : List (String × StatusCell))
    (stage : List String) (output : List (String × Nat)) (cleared : Bool) :
    List (String × Nat) × Bool :=
  stage.foldl
    (fun acc service =>
      match statusValues.lookup service with
      | some status =>
          if status.dropFlag then (acc.1, true) else acc
      | none =>
          (saveAssoc acc.1 service (((acc.1.lookup service).getD 0) + 1), acc.2))
    (output, cleared)

/-- The stage loop of `outstanding_services` (`while schedule:` with
`schedule.clear()` stopping further stages but not the current one). -/
def outstandingSchedule (statusValues : List (String × StatusCell)) :
    List (List String) → List (String × Nat) → List (String × Nat)
  | [], output => output
  | stage :: rest, output =>
      let step := outstandingStage statusValues stage output false
      if step.2 then step.1 else outstandingSchedule statusValues rest step.1

/-- `DispatchClient.outstanding_services(sid)` from
`src/al_core/dispatching/client.py`: walk the files of the dispatch table's
`all_results()`, look up each file's cached schedule (a file without one
contributes nothing) and count, stage by stage, the services for which the
file has no status cell. -/
def outstanding_services (st : DState) : List (String × Nat) :=
  (allResults st.cells).foldl
    (fun output fs =>
      match st.schedulesCache.lookup fs.1 with
      | none => output
      | some schedule => outstandingSchedule fs.2 schedule output)
    []

/-- The terminal-error search of `_find_results`: the id of the first error
document matching `sid AND file_hash AND service AND catagory:'terminal'`
(`rows=1`). -/
def terminalErrorSearch (errorsStore : List (String × Option ErrorRec))
    (sid file_hash service : String) : Option String :=
  (errorsStore.filterMap (fun e =>
    match e.2 with
    | some err =>
        if err.sid = sid ∧ err.file_hash = file_hash ∧ err.service = service ∧
            err.catagory = "terminal" then some e.1 else none
    | none => none)).head?

/-- The non-terminal error count of `_find_results`: the number of error
documents matching `sid AND file_hash AND service AND (catagory:'timeout' OR
catagory:'crash')`. -/
def nonTerminalErrorCount (errorsStore : List (String × Option ErrorRec))
    (sid file_hash service : String) : Nat :=
  (errorsStore.filterMap (fun e =>
    match e.2 with
    | some err =>
        if err.sid = sid ∧ err.file_hash = file_hash ∧ err.service = service ∧
            (err.catagory = "timeout" ∨ err.catagory = "crash") then some e.1
        else none
    | none => none)).length

/-- `Dispatcher._find_results(sid, file_hash, service, config)` from
`src/dispatching/dispatcher.py`: return the cached result key when the
result store has `build_result_key(file_hash, service, config_hash(config))`;
otherwise the id of a terminal error matching (sid, file_hash, service);
otherwise the sentinel string when the count of timeout/crash errors is
strictly greater than `service_failure_limit(service)`; otherwise nothing. -/
def find_results (sch : Scheduler) (resultsStore : List (String × ResultRec))
    (errorsStore : List (String × Option ErrorRec))
    (sid file_hash service config : String) : Option String :=
  let key := sch.buildResultKey file_hash service (config_hash config)
  if (resultsStore.lookup key).isSome then some key
  else
    match terminalErrorSearch errorsStore sid file_hash service with
    | some errorId => some errorId
    | none =>
        if nonTerminalErrorCount errorsStore sid file_hash service >
            sch.serviceFailureLimit service then
          some "errors"
        else none

/-- The string `dispatch_file` actually hands to `_find_results` as its `sid`
argument: the call at line 378 passes the submission object itself, which the
query's f-string renders as the object's repr, not as the sid. -/
def submissionRepr (sub : SubmissionRec) : String :=
  String.append (String.append "<Submission " sub.sid) ">"

/-- The evolving state of `dispatch_file`'s schedule scan: the table cells
and finished counter (mutated by in-pass cache finishes), `tasks_remaining`
(the value returned by the most recent `finish`, 0 before any), the
`outstanding` service→config accumulator (the source's dict, kept as a list
in insertion order) and whether `schedule.clear()` has run. -/
structure ScanSt where
  cells : List ((String × String) × StatusCell)
  finCount : Nat
  rem : Nat
  outstanding : List (String × String)
  cleared : Bool
deriving DecidableEq, Repr

/-- One service of one stage in `dispatch_file`'s scan loop: skip a finished
service (clearing the remaining stages when it was dropped and filtering is
not ignored); otherwise try the `_find_results` short-circuit — on a hit
whose key is an existing result, `finish` the cell (recording the returned
remaining count) and honour its drop flag; on a hit with no stored result
(an error id or the sentinel) do nothing; on a miss add the service and its
resolved config to `outstanding`.  (The source's `finish` call passes no
score; the modelled table signature takes the result's score.) -/
def scanService (sch : Scheduler) (sub : SubmissionRec)
    (resultsStore : List (String × ResultRec))
    (errorsStore : List (String × Option ErrorRec))
    (file_hash : String) (s : ScanSt) (service : String) : ScanSt :=
  match tableFinished s.cells file_hash service with
  | some _ =>
      if ¬ sub.ignoreFiltering ∧ tableDropped s.cells file_hash service then
        { s with cleared := true }
      else s
  | none =>
      let config := sch.buildServiceConfig service sub
      match find_results sch resultsStore errorsStore (submissionRepr sub)
          file_hash service config with
      | some accessKey =>
          match resultsStore.lookup accessKey with
          | some result =>
              let fin := tableFinish s.cells s.finCount file_hash service
                accessKey result.score result.dropFile
              let s' := { s with cells := fin.1, finCount := fin.2.1, rem := fin.2.2 }
              if ¬ sub.ignoreFiltering ∧ result.dropFile then
                { s' with cleared := true }
              else s'
          | none => s
      | none => { s with outstanding := s.outstanding ++ [(service, config)] }

/-- The stage loop of `dispatch_file` (`while schedule and not outstanding`):
process a whole stage, then stop if `schedule.clear()` ran or a service is
outstanding. -/
def scanSchedule (sch : Scheduler) (sub : SubmissionRec)
    (resultsStore : List (String × ResultRec))
    (errorsStore : List (String × Option ErrorRec))
    (file_hash : String) : List (List String) → ScanSt → ScanSt
  | [], s => s
  | stage :: rest, s =>
      let s' := stage.foldl (scanService sch sub resultsStore errorsStore file_hash) s
      if s'.cleared ∨ s'.outstanding ≠ [] then s'
      else scanSchedule sch sub resultsStore errorsStore file_hash rest s'

/-- The `ServiceTask` message `dispatch_file` builds for one outstanding
service: the `FileTask` fields plus the service name and its resolved config
serialized with `json.dumps`. -/
def serviceTaskOf (task : FileTask) (service config : String) : ServiceTask :=
  { sid := task.sid, parent_hash := task.parent_hash
    file_hash := task.file_hash, file_type := task.file_type
    depth := task.depth, service_name := service
    service_config := jsonDumps config }

/-- One outstanding service in `dispatch_file`'s dispatch loop: skip it when
the elapsed time since the table's `dispatch_time` is less than
`service_timeout(service)`; otherwise push a `ServiceTask` carrying the
resolved config onto `service-queue-<service>` and record the dispatch in the
table.  The accumulator is (cells, dispatch_count, pushes). -/
def dispatchStep (sch : Scheduler) (now : Int) (task : FileTask)
    (acc : List ((String × String) × StatusCell) × Nat × List (String × ServiceTask))
    (oc : String × String) :
    List ((String × String) × StatusCell) × Nat × List (String × ServiceTask) :=
  let queuedTime := now - tableDispatchTime acc.1 task.file_hash oc.1
  if queuedTime < sch.serviceTimeout oc.1 then acc
  else
    let disp := tableDispatch acc.1 acc.2.1 task.file_hash oc.1 now
    (disp.1, disp.2, acc.2.2 ++ [(service_queue_name oc.1, serviceTaskOf task oc.1 oc.2)])

/-- The dispatch loop of `dispatch_file` over the outstanding services. -/
def dispatchOutstanding (sch : Scheduler) (now : Int) (task : FileTask)
    (outstanding : List (String × String))
    (cells : List ((String × String) × StatusCell)) (dispatchCount : Nat) :
    List ((String × String) × StatusCell) × Nat × List (String × ServiceTask) :=
  outstanding.foldl (dispatchStep sch now task) (cells, dispatchCount, [])

/-- The body of `Dispatcher.dispatch_file` once the submission has been
loaded: compute the schedule, scan its stages (finishing services resolved
by the result cache), then either dispatch the outstanding services or —
when none are outstanding — bump `dispatch.files_completed` and push `{sid}`
to the submission queue iff the table reports `all_finished` and the last
in-pass `finish` (if any) returned a remaining count of 0.  The
`watcher.touch` refresh is external and omitted. -/
def dispatchFileCore (sch : Scheduler) (now : Int) (task : FileTask)
    (sub : SubmissionRec) (st : DState) : DState :=
  let schedule := sch.buildSchedule sub task.file_type
  let s0 : ScanSt :=
    { cells := st.cells, finCount := st.finishedCount, rem := 0
      outstanding := [], cleared := false }
  let s1 := scanSchedule sch sub st.resultsStore st.errorsStore
    task.file_hash schedule s0
  if s1.outstanding ≠ [] then
    let d := dispatchOutstanding sch now task s1.outstanding s1.cells st.dispatchCount
    { st with
      cells := d.1
      dispatchCount := d.2.1
      finishedCount := s1.finCount
      serviceQueues := st.serviceQueues ++ d.2.2 }
  else
    let push := allFinished s1.cells st.dispatchCount s1.finCount st.schedulesCache ∧
      s1.rem = 0
    { st with
      cells := s1.cells
      finishedCount := s1.finCount
      filesCompleted := st.filesCompleted + 1
      submissionQueue :=
        if push then st.submissionQueue ++ [sub.sid] else st.submissionQueue }

/-- `Dispatcher.dispatch_file(task)` from `src/dispatching/dispatcher.py`:
load the submission from the store (failing when it is absent), then run the
scan and dispatch phases. -/
def dispatch_file (sch : Scheduler) (now : Int) (task : FileTask)
    (st : DState) : Option DState :=
  match st.submissionsStore.lookup task.sid with
  | none => none
  | some submission => some (dispatchFileCore sch now task submission st)

/-- `create_missing_file_error(submission, sha)` from
`src/dispatching/dispatcher.py`: the body constructs an `Error` document with
response status `FAIL_NONRECOVERABLE` for the missing file, but the function
has no `return` statement, so the value its caller receives — and stores —
is `None`. -/
def create_missing_file_error (submission : SubmissionRec) (sha : String) :
    Option ErrorRec :=
  let _constructed : ErrorRec :=
    { sid := submission.sid, file_hash := sha, service := "dispatcher"
      catagory := "", status := "FAIL_NONRECOVERABLE" }
  none

/-- One iteration of the seeding loop of `dispatch_submission`: fetch the
file record; when it is missing, save `create_missing_file_error`'s value
(None) under a fresh uuid and skip the file; otherwise push a depth-0
`FileTask` onto the unchecked stack (most recently appended first, matching
`list.pop()`). -/
def seedStep (sub : SubmissionRec) (filesStore : List (String × FileRec))
    (acc : List (String × Option ErrorRec) × Nat × List FileTask)
    (fileObj : FileObj) :
    List (String × Option ErrorRec) × Nat × List FileTask :=
  match filesStore.lookup fileObj.sha256 with
  | none =>
      (saveAssoc acc.1 (mkUuid acc.2.1)
        (create_missing_file_error sub fileObj.sha256), acc.2.1 + 1, acc.2.2)
  | some fileData =>
      (acc.1, acc.2.1,
       ({ sid := sub.sid, parent_hash := none, file_hash := fileObj.sha256
          file_type := fileData.type, depth := 0 } : FileTask) :: acc.2.2)

/-- The seeding loop of `dispatch_submission` over `submission.files`;
returns the new error store, the new fresh-id counter and the stack. -/
def seedFiles (sub : SubmissionRec) (filesStore : List (String × FileRec))
    (errorsStore : List (String × Option ErrorRec)) (freshId : Nat) :
    List (String × Option ErrorRec) × Nat × List FileTask :=
  sub.files.foldl (seedStep sub filesStore) (errorsStore, freshId, [])

/-- The accumulator of `dispatch_submission`'s result walk: the pending-file
map (keyed by hash, insertion order preserved), the encountered-hash set, the
tasks appended to the unchecked stack while processing the current file (most
recent first), and the running `max_score` / classification list. -/
structure WalkSt where
  pending : List (String × FileTask)
  encountered : List String
  newTasks : List FileTask
  maxScore : Option Int
  classifications : List String
deriving DecidableEq, Repr

/-- The extracted-children loop of `dispatch_submission` (lines 204–214):
each sub-file not yet encountered is added to the encountered set and pushed
as a `FileTask` at the parent's depth + 1 — but its `file_type` is looked up
with the stale `file_hash` variable left over from the seeding loop (the last
entry of `submission.files`), not with `sub_file`; when that lookup misses
(or `submission.files` was empty) the `.type` access raises, modelled as a
failure. -/
def extractChildren (filesStore : List (String × FileRec)) (sid : String)
    (stale : Option FileObj) (depth : Nat) :
    List String → List String → List FileTask →
    Option (List String × List FileTask)
  | [], enc, acc => some (enc, acc)
  | subFile :: rest, enc, acc =>
      if enc.contains subFile then
        extractChildren filesStore sid stale depth rest enc acc
      else
        let enc' := subFile :: enc
        match stale with
        | none => none
        | some staleObj =>
            match filesStore.lookup staleObj.sha256 with
            | none => none
            | some fd =>
                extractChildren filesStore sid stale depth rest enc'
                  (({ sid := sid, parent_hash := none, file_hash := subFile
                      file_type := fd.type, depth := depth } : FileTask) :: acc)

/-- One service of the walk (lines 179–221): a service still inside its
timeout window, or with no result in the table, marks the file pending; the
sentinel for abandoned-with-errors is skipped; a file at or beyond the depth
limit is skipped entirely — before its score and classification are
accumulated; otherwise the result is fetched (a missing result document makes
the attribute access raise), its new extracted children are pushed, and its
score and classification are folded into the accumulators. -/
def walkService (sch : Scheduler)
    (cells : List ((String × String) × StatusCell))
    (resultsStore : List (String × ResultRec))
    (filesStore : List (String × FileRec)) (now : Int) (depthLimit : Nat)
    (stale : Option FileObj) (task : FileTask) (w : WalkSt)
    (service : String) : Option WalkSt :=
  let runtime := now - tableDispatchTime cells task.file_hash service
  if runtime < sch.serviceTimeout service then
    some { w with pending := saveAssoc w.pending task.file_hash task }
  else
    match tableFinished cells task.file_hash service with
    | none => some { w with pending := saveAssoc w.pending task.file_hash task }
    | some resultKey =>
        if resultKey = "errors" then some w
        else if depthLimit ≤ task.depth then some w
        else
          match resultsStore.lookup resultKey with
          | none => none
          | some result =>
              match extractChildren filesStore task.sid stale (task.depth + 1)
                  result.extracted w.encountered w.newTasks with
              | none => none
              | some ec =>
                  let maxScore' :=
                    match w.maxScore with
                    | none => some result.score
                    | some m => some (max m result.score)
                  some { w with
                         encountered := ec.1
                         newTasks := ec.2
                         maxScore := maxScore'
                         classifications := w.classifications ++ [result.classification] }

/-- The flattened-schedule loop of the walk for one file. -/
def walkServices (sch : Scheduler)
    (cells : List ((String × String) × StatusCell))
    (resultsStore : List (String × ResultRec))
    (filesStore : List (String × FileRec)) (now : Int) (depthLimit : Nat)
    (stale : Option FileObj) (task : FileTask) :
    List String → WalkSt → Option WalkSt
  | [], w => some w
  | service :: rest, w =>
      match walkService sch cells resultsStore filesStore now depthLimit stale
          task w service with
      | none => none
      | some w' =>
          walkServices sch cells resultsStore filesStore now depthLimit stale
            task rest w'

/-- The `while unchecked_files:` loop of `dispatch_submission`: pop a task,
flatten its schedule with `reduce` (which raises on an empty stage list),
walk its services, and push any newly extracted tasks back onto the stack.
The recursion is fuelled; `dispatch_submission` supplies fuel that bounds the
iteration count (every push consumes a hash never encountered before, so the
iterations never exceed the seeds plus the total extracted-list length). -/
def walkAll (sch : Scheduler) (sub : SubmissionRec)
    (cells : List ((String × String) × StatusCell))
    (resultsStore : List (String × ResultRec))
    (filesStore : List (String × FileRec)) (now : Int) (depthLimit : Nat)
    (stale : Option FileObj) :
    Nat → List FileTask → WalkSt → Option WalkSt
  | 0, _, _ => none
  | _ + 1, [], w => some w
  | fuel + 1, task :: rest, w =>
      let schedule := sch.buildSchedule sub task.file_type
      if schedule = [] then none
      else
        match walkServices sch cells resultsStore filesStore now depthLimit
            stale task schedule.flatten { w with newTasks := [] } with
        | none => none
        | some w' =>
            walkAll sch sub cells resultsStore filesStore now depthLimit stale
              fuel (w'.newTasks ++ rest) { w' with newTasks := [] }

/-- The total extracted-list length over the result store, used to fuel the
walk. -/
def totalExtracted (resultsStore : List (String × ResultRec)) : Nat :=
  (resultsStore.map (fun e => e.2.extracted.length)).sum

/-- `max_classification` of the external classification lattice, modelled
from the spec as a join (here: the maximum in string order). -/
def max_classification (a b : String) : String := if a < b then b else a

/-- `Dispatcher.finalize_submission` from `src/dispatching/dispatcher.py`.
The source references undefined names (`task`, `dispatcher.completed`,
`dispatcher.watchers`, `Classification`) and a misspelled datastore save
(`sive`); following the specification's reading (§4.5, open question 1), the
aggregate classification is the lattice join of the classifications the walk
accumulated.  The table's results are captured and the table deleted, the
aggregate fields are written to the stored submission, a completion notice is
pushed to `completed_queue` when present, and `STOP` is fanned out to every
watcher before the watcher set is dropped.  The external tag-set deletes and
the quota-hold release are omitted.  `finalizeRecord` is the aggregate
record finalize writes to the submission store. -/
def finalizeRecord (now : Int) (sub : SubmissionRec)
    (resultClassifications : List String) (maxScore : Option Int)
    (cells : List ((String × String) × StatusCell)) : SubmissionRec :=
  { sub with
    classification := resultClassifications.foldl max_classification "UNRESTRICTED"
    errorCount := 0
    errorsField := []
    fileCount := ((cells.map (fun e => e.1.1)).eraseDups).length
    resultsField := cells
    maxScore := maxScore
    state := "completed"
    completedAt := now }

/-- The state transformation of `finalize_submission`: capture the table's
results, delete the table, save the aggregate record, push the completion
notice and fan `STOP` out to the watchers. -/
def finalize_submission (now : Int) (sub : SubmissionRec)
    (resultClassifications : List String) (maxScore : Option Int)
    (st : DState) : DState :=
  let record := finalizeRecord now sub resultClassifications maxScore st.cells
  let completedPushes' :=
    match sub.completedQueue with
    | some q => st.completedPushes ++ [(q, record)]
    | none => st.completedPushes
  { st with
    cells := [], dispatchCount := 0, finishedCount := 0, schedulesCache := []
    submissionsStore := saveAssoc st.submissionsStore sub.sid record
    completedPushes := completedPushes'
    watchQueues := fanOut st.watchQueues st.watcherSet
      { status := "STOP", cache_key := none }
    watcherSet := [] }

/-- `Dispatcher.dispatch_submission(submission)` from
`src/dispatching/dispatcher.py`: seed the unchecked stack from
`submission.files` (recording the missing-file "errors" — the stored value
is None — for absent files), walk every unchecked file's results collecting
pending files, extracted children, `max_score` and classifications, then
either re-push a `FileTask` for every pending file or finalize the
submission.  The `watcher.touch` refresh and the quota-hold write are
external and omitted. -/
def dispatch_submission (sch : Scheduler) (cfg : CoreConfig) (now : Int)
    (sub : SubmissionRec) (st : DState) : Option DState :=
  let depthLimit := cfg.extractionDepthLimit
  let seeded := seedFiles sub st.filesStore st.errorsStore st.freshId
  let stack := seeded.2.2
  let stale := sub.files.getLast?
  let w0 : WalkSt :=
    { pending := [], encountered := sub.files.map FileObj.sha256
      newTasks := [], maxScore := none, classifications := [] }
  match walkAll sch sub st.cells st.resultsStore st.filesStore now depthLimit
      stale (stack.length + totalExtracted st.resultsStore + 1) stack w0 with
  | none => none
  | some w =>
      let st1 := { st with errorsStore := seeded.1, freshId := seeded.2.1 }
      if w.pending ≠ [] then
        some { st1 with
          fileQueue := st1.fileQueue ++ w.pending.map (fun p => FileTaskMsg.v1 p.2) }
      else
        some (finalize_submission now sub w.classifications w.maxScore st1)

/-- The list of messages `service_finished` appends to the file queue: the
child tasks of the extracted files (when the task's depth is below the
extraction limit) followed by the parent task (when the remaining count
returned by the table's `finish` is 0). -/
def serviceFinishedPushes (cfg : CoreConfig) (task : ClientServiceTask)
    (result : ResultRec) (st : DState) : List FileTaskMsg :=
  (if task.depth < cfg.maxExtractionDepth then
    result.extracted.map
      (fun sha => FileTaskMsg.v2 (childFileTask st.filesStore task sha))
   else []) ++
  (if (tableFinish st.cells st.finishedCount task.fileinfo.sha256
        task.service_name (resultBuildKey result task.config_key)
        result.score result.dropFile).2.2 = 0 then
    [FileTaskMsg.v2 (parentFileTask task)]
   else [])

/-- The scan-phase result `dispatch_file` computes for a task against a
state (before the dispatch phase). -/
def scanResult (sch : Scheduler) (sub : SubmissionRec) (st : DState)
    (task : FileTask) : ScanSt :=
  scanSchedule sch sub st.resultsStore st.errorsStore task.file_hash
    (sch.buildSchedule sub task.file_type)
    { cells := st.cells, finCount := st.finishedCount, rem := 0
      outstanding := [], cleared := false }

/-- The outstanding (service, config) list of `dispatch_file`'s scan. -/
def scanOutstanding (sch : Scheduler) (sub : SubmissionRec) (st : DState)
    (task : FileTask) : List (String × String) :=
  (scanResult sch sub st task).outstanding

/-- A service the scan can never finish in-pass: its `_find_results` lookup
misses, or hits a key with no stored result document. -/
def NoFinisher (sch : Scheduler) (sub : SubmissionRec)
    (res : List (String × ResultRec)) (errs : List (String × Option ErrorRec))
    (f svc : String) : Prop :=
  match find_results sch res errs (submissionRepr sub) f svc
      (sch.buildServiceConfig svc sub) with
  | some k => res.lookup k = none
  | none => True

/-- How the scan evolves the cells of the scanned file: finished cells keep
their exact value, and a service the scan can never finish stays
unfinished. -/
def ScanEvolve (sch : Scheduler) (sub : SubmissionRec)
    (res : List (String × ResultRec)) (errs : List (String × Option ErrorRec))
    (f : String) (A B : List ((String × String) × StatusCell)) : Prop :=
  (∀ svc, (tableFinished A f svc).isSome →
    B.lookup (f, svc) = A.lookup (f, svc)) ∧
  (∀ svc, tableFinished A f svc = none →
    NoFinisher sch sub res errs f svc → tableFinished B f svc = none)

/-- What the dispatch phase preserves of the scanned cells: a table `T`
agreeing with the scan-final cells on every finished cell and keeping every
unfinished service unfinished. -/
def ScanPreserved (f : String)
    (T Final : List ((String × String) × StatusCell)) : Prop :=
  (∀ svc, (tableFinished Final f svc).isSome →
    T.lookup (f, svc) = Final.lookup (f, svc)) ∧
  (∀ svc, tableFinished Final f svc = none → tableFinished T f svc = none)

/-!  Concrete instances used by the witnesses and counterexamples. -/

/-- A concrete scheduler: type `ta` is handled by service `sA` in a single
stage, every other type by `sB`; 10-second timeouts, failure limit 2. -/
def schX : Scheduler :=
  { buildSchedule := fun _ t => if t = "ta" then [["sA"]] else [["sB"]]
    serviceTimeout := fun _ => 10
    serviceFailureLimit := fun _ => 2
    buildServiceConfig := fun s _ => String.append "cfg-" s
    buildResultKey := fun f s h =>
      String.append f (String.append "." (String.append s (String.append "." h))) }

/-- A concrete configuration with room for extraction. -/
def cfgX : CoreConfig :=
  { extractionDepthLimit := 8, maxExtractionDepth := 8, dispatcherTimeout := 30 }

/-- A state with every component empty. -/
def emptyState : DState :=
  { cells := [], dispatchCount := 0, finishedCount := 0, schedulesCache := []
    resultsStore := [], errorsStore := [], filesStore := [], submissionsStore := []
    fileQueue := [], submissionQueue := [], serviceQueues := [], watchQueues := []
    watcherSet := [], completedPushes := [], filesCompleted := 0, freshId := 0 }

/-- A concrete submission with a single file `F`. -/
def subX : SubmissionRec :=
  { sid := "S", files := [{ sha256 := "F" }], ignoreFiltering := false
    completedQueue := none, state := "submitted", classification := "U"
    errorCount := 0, errorsField := [], fileCount := 0, resultsField := []
    maxScore := none, completedAt := 0 }

/-- Config for the `service_finished` scenarios: extraction depth limit 3. -/
def cfgC1 : CoreConfig :=
  { extractionDepthLimit := 3, maxExtractionDepth := 3, dispatcherTimeout := 30 }

/-- A service task at depth 5 (beyond `cfgC1`'s limit) for file `F`. -/
def taskC1 : ClientServiceTask :=
  { sid := "S", fileinfo := { sha256 := "F", type := "ta" }
    service_name := "sA", depth := 5, config_key := "ck" }

/-- A service task at depth 1 (below `cfgC1`'s limit) for file `F`. -/
def taskC5 : ClientServiceTask :=
  { sid := "S", fileinfo := { sha256 := "F", type := "ta" }
    service_name := "sA", depth := 1, config_key := "ck" }

/-- A result extracting one child `E1`. -/
def resultC1 : ResultRec :=
  { score := 7, classification := "U", dropFile := false
    extracted := ["E1"], keyBase := "kb" }

/-- A state where `(F, sA)` and a second cell `(G, sB)` are both dispatched:
finishing `(F, sA)` leaves one non-terminal cell, so `finish` returns 1. -/
def stC1 : DState :=
  { emptyState with
    cells := [(("F", "sA"), .dispatched 0), (("G", "sB"), .dispatched 0)]
    dispatchCount := 2 }

/-- A state where `(F, sA)` is the only cell: finishing it returns 0. -/
def stC1b : DState :=
  { emptyState with
    cells := [(("F", "sA"), .dispatched 0)]
    dispatchCount := 1 }

/-- An error store holding exactly two non-terminal (timeout/crash) errors
for `(S, F, sA)` — exactly `schX`'s failure limit — and no terminal error. -/
def errsC2 : List (String × Option ErrorRec) :=
  [("e1", some { sid := "S", file_hash := "F", service := "sA"
                 catagory := "timeout", status := "FAIL_RECOVERABLE" }),
   ("e2", some { sid := "S", file_hash := "F", service := "sA"
                 catagory := "crash", status := "FAIL_RECOVERABLE" })]

/-- A result store containing the cache key `schX` builds for
`(F, sA, config "c0")`. -/
def resC2 : List (String × ResultRec) :=
  [("F.sA.h:c0", { score := 1, classification := "U", dropFile := false
                   extracted := [], keyBase := "F" })]

/-- The dispatch-file task for file `a` of type `ta`. -/
def taskA : FileTask :=
  { sid := "S", parent_hash := none, file_hash := "a", file_type := "ta"
    depth := 0 }

/-- The cached result resolving `(a, sA)` in the C4 scenario. -/
def resA : ResultRec :=
  { score := 5, classification := "U", dropFile := false, extracted := []
    keyBase := "x" }

/-- C4 scenario: file `b`'s only cell is dispatched (1 dispatched, 0
finished) and file `a`'s single service resolves from the result cache, so
the in-pass `finish` returns a remaining count of 1 while the counters and
the schedule cache make `all_finished` true. -/
def stC4 : DState :=
  { emptyState with
    cells := [(("b", "sB"), .dispatched 95)]
    dispatchCount := 1
    schedulesCache := [("a", [["sA"]]), ("b", [["sB"]])]
    resultsStore := [("a.sA.h:cfg-sA", resA)]
    submissionsStore := [("S", subX)] }

/-- A state with only the submission stored: every service of a dispatched
file is outstanding. -/
def stC3 : DState :=
  { emptyState with submissionsStore := [("S", subX)] }

/-- C6 scenario: a submission referencing a missing file `h1` and a present
file `h2`. -/
def subC6 : SubmissionRec :=
  { subX with sid := "S6", files := [{ sha256 := "h1" }, { sha256 := "h2" }] }

/-- C6 scenario state: only `h2` exists in the file store. -/
def stC6 : DState :=
  { emptyState with filesStore := [("h2", { sha256 := "h2", type := "tb" })] }

/-- The `FileTask` `dispatch_submission` seeds for the present file `h2`. -/
def taskH2 : FileTask :=
  { sid := "S6", parent_hash := none, file_hash := "h2", file_type := "tb"
    depth := 0 }

/-- C7 scenario config: extraction depth limit 0, so even the top-level file
is at the limit. -/
def cfgC7 : CoreConfig :=
  { extractionDepthLimit := 0, maxExtractionDepth := 0, dispatcherTimeout := 30 }

/-- The finished result of `(F, sA)` in the C7 scenario: score 100. -/
def resultR1 : ResultRec :=
  { score := 100, classification := "TLP", dropFile := false, extracted := []
    keyBase := "kb" }

/-- C7 scenario state: `(F, sA)` is `Finished` with result `r1` (score 100)
and the file exists, so the walk sees a finished cell for a file at the depth
limit. -/
def stC7 : DState :=
  { emptyState with
    cells := [(("F", "sA"), .finished "r1" 100 false)]
    dispatchCount := 1
    finishedCount := 1
    resultsStore := [("r1", resultR1)]
    filesStore := [("F", { sha256 := "F", type := "ta" })]
    submissionsStore := [("S", subX)] }

/-- C8 scenario state: a non-empty table with one finished and one
terminally-failed cell. -/
def stC8 : DState :=
  { emptyState with
    cells := [(("F", "sA"), .finished "r1" 5 false), (("F", "sB"), .failedTerminal "e9")]
    dispatchCount := 2
    finishedCount := 2
    freshId := 7 }

/-- C10 scenario state: an empty dispatch table, but a cached schedule, a
stored submission and a stored file — services are still owed for `F`, yet
no status cell exists. -/
def stC10 : DState :=
  { emptyState with
    schedulesCache := [("F", [["sA"]])]
    submissionsStore := [("S", subX)]
    filesStore := [("F", { sha256 := "F", type := "ta" })] }

/-- The state `setup_watch_queue` produces on its STOP branch (empty table,
submission absent or completed). -/
def setupWatchStopState (st : DState) : DState :=
  { st with
    freshId := st.freshId + 1
    watcherSet := replyQueueName st.freshId :: st.watcherSet
    watchQueues := saveAssoc
      (saveAssoc st.watchQueues (replyQueueName st.freshId)
        [{ status := "START", cache_key := none }])
      (replyQueueName st.freshId)
      ([{ status := "START", cache_key := none }] ++
        [{ status := "STOP", cache_key := none }]) }

/-- The state `setup_watch_queue` produces on its nudge branch (empty table,
submission present and not completed). -/
def setupWatchNudgeState (sid : String) (st : DState) : DState :=
  { st with
    freshId := st.freshId + 1
    watcherSet := replyQueueName st.freshId :: st.watcherSet
    watchQueues := saveAssoc st.watchQueues (replyQueueName st.freshId)
      [{ status := "START", cache_key := none }]
    submissionQueue := st.submissionQueue ++ [sid] }

/-- The state `setup_watch_queue` produces on its replay branch (non-empty
table). -/
def setupWatchReplayState (st : DState) : DState :=
  { st with
    freshId := st.freshId + 1
    watcherSet := replyQueueName st.freshId :: st.watcherSet
    watchQueues := saveAssoc
      (saveAssoc st.watchQueues (replyQueueName st.freshId)
        [{ status := "START", cache_key := none }])
      (replyQueueName st.freshId)
      ([{ status := "START", cache_key := none }] ++
        ((allResults st.cells).map (fun fs =>
          fs.2.map (fun sv => statusReplayMessage sv.2))).flatten) }

/-- The components of the spec-modelled `DispatchHash` table a state holds:
the status cells, the dispatch and finished counters and the per-file
schedule cache. -/
def dispatchTable (st : DState) :
    List ((String × String) × StatusCell) × Nat × Nat ×
      List (String × List (List String)) :=
  (st.cells, st.dispatchCount, st.finishedCount, st.schedulesCache)

/-- Invariant of the scan: every outstanding service has no in-pass
finisher and its cell is unfinished. -/
def OutUnfin (sch : Scheduler) (sub : SubmissionRec)
    (res : List (String × ResultRec)) (errs : List (String × Option ErrorRec))
    (f : String) (s : ScanSt) : Prop :=
  ∀ p ∈ s.outstanding, NoFinisher sch sub res errs f p.1 ∧
    tableFinished s.cells f p.1 = none

/-- A submission with a single file `F9` of type `ta`, used to exercise the
re-delivery of a `FileTask`. -/
def subW9 : SubmissionRec :=
  { sid := "S9", files := [{ sha256 := "F9" }], ignoreFiltering := false
    completedQueue := none, state := "submitted", classification := "U"
    errorCount := 0, errorsField := [], fileCount := 0, resultsField := []
    maxScore := none, completedAt := 0 }

/-- The `FileTask` for `subW9`'s file. -/
def taskWit : FileTask :=
  { sid := "S9", parent_hash := none, file_hash := "F9", file_type := "ta"
    depth := 0 }

/-- A state holding `subW9` and nothing else. -/
def stW : DState :=
  { emptyState with submissionsStore := [("S9", subW9)] }

/-- The state `dispatch_file` produces from `stW` at time 100: `sA`
dispatched and its `ServiceTask` queued. -/
def stW2 : DState :=
  { emptyState with
    cells := [(("F9", "sA"), StatusCell.dispatched 100)]
    dispatchCount := 1
    submissionsStore := [("S9", subW9)]
    serviceQueues := [("service-queue-sA",
      { sid := "S9", parent_hash := none, file_hash := "F9"
        file_type := "ta", depth := 0, service_name := "sA"
        service_config := "cfg-sA" })] }

/-- A submission with a single file `G` of type `tb`, used to exercise the
re-delivery of a `{sid}` wake-up. -/
def subWB : SubmissionRec :=
  { sid := "W", files := [{ sha256 := "G" }], ignoreFiltering := false
    completedQueue := none, state := "submitted", classification := "U"
    errorCount := 0, errorsField := [], fileCount := 0, resultsField := []
    maxScore := none, completedAt := 0 }

/-- A state holding `subWB`'s file record and nothing else. -/
def stB : DState :=
  { emptyState with filesStore := [("G", { sha256 := "G", type := "tb" })] }

/-- The state `dispatch_submission` produces from `stB` at time 0: file `G`
is pending (its service inside the timeout window) and re-queued. -/
def stB2 : DState :=
  { emptyState with
    filesStore := [("G", { sha256 := "G", type := "tb" })]
    fileQueue := [FileTaskMsg.v1
      { sid := "W", parent_hash := none, file_hash := "G", file_type := "tb"
        depth := 0 }] }

/-- A submission whose only file `ZZ` is absent from every file store. -/
def subZ : SubmissionRec :=
  { sid := "Z", files := [{ sha256 := "ZZ" }], ignoreFiltering := false
    completedQueue := none, state := "submitted", classification := "U"
    errorCount := 0, errorsField := [], fileCount := 0, resultsField := []
    maxScore := none, completedAt := 0 }

/-- A state with an empty file store but a leftover status cell in the
dispatch table. -/
def stZ : DState :=
  { emptyState with cells := [(("q", "sB"), StatusCell.dispatched 0)] }

/-!  ## Theorems -/

/-- Replacing the value of a present key makes it the one looked up. -/
theorem lookup_map_replace {α : Type} (l : List (String × α)) (k : String)
    (v : α) (hs : (l.lookup k).isSome) :
    (l.map (fun e => if e.1 = k then (k, v) else e)).lookup k = some v := by
  induction l with
  | nil => simp [List.lookup] at hs
  | cons hd t ih =>
      obtain ⟨k', v'⟩ := hd
      by_cases hk : k' = k
      · subst hk
        have hf : (if (k', v').1 = k' then (k', v) else (k', v')) = (k', v) :=
          if_pos rfl
        rw [List.map_cons, hf]
        simp [List.lookup]
      · have hbk : (k == k') = false := beq_eq_false_iff_ne.mpr (Ne.symm hk)
        have hf : (if (k', v').1 = k then (k, v) else (k', v')) = (k', v') :=
          if_neg hk
        rw [List.map_cons, hf]
        simp only [List.lookup, hbk] at hs ⊢
        exact ih hs

/-- Appending a fresh key makes it the one looked up. -/
theorem lookup_append_missing {α : Type} (l : List (String × α)) (k : String)
    (v : α) (hn : l.lookup k = none) :
    (l ++ [(k, v)]).lookup k = some v := by
  induction l with
  | nil => simp [List.lookup]
  | cons hd t ih =>
      simp only [List.lookup, List.cons_append] at hn ⊢
      cases hbeq : (k == hd.1) with
      | true => simp [hbeq] at hn
      | false =>
          simp only [hbeq] at hn ⊢
          exact ih hn

/-- Storing a document makes it the one found under its key. -/
theorem lookup_saveAssoc {α : Type} (l : List (String × α)) (k : String) (v : α) :
    (saveAssoc l k v).lookup k = some v := by
  unfold saveAssoc
  by_cases hs : (l.lookup k).isSome
  · rw [if_pos hs]
    exact lookup_map_replace l k v hs
  · rw [if_neg hs]
    exact lookup_append_missing l k v (Option.not_isSome_iff_eq_none.mp hs)

/-- The file-queue update of `service_finished`: the prior queue followed by
`serviceFinishedPushes`. -/
theorem service_finished_fileQueue (cfg : CoreConfig) (task : ClientServiceTask)
    (result : ResultRec) (st : DState) :
    (service_finished cfg task result st).fileQueue =
      st.fileQueue ++ serviceFinishedPushes cfg task result st := by
  show (st.fileQueue ++ _) ++ _ = _
  rw [List.append_assoc]
  rfl

/-- The parent re-push of `service_finished` is never one of the child
pushes: a child task's depth is the parent task's depth plus one. -/
theorem parent_not_in_children (fs : List (String × FileRec))
    (task : ClientServiceTask) (l : List String) :
    FileTaskMsg.v2 (parentFileTask task) ∉
      l.map (fun sha => FileTaskMsg.v2 (childFileTask fs task sha)) := by
  intro h
  obtain ⟨sha, _, heq⟩ := List.mem_map.mp h
  have hd : (childFileTask fs task sha).depth = (parentFileTask task).depth := by
    rw [FileTaskMsg.v2.inj heq]
  simp [childFileTask, parentFileTask] at hd

/-- C1 counterexample: a `service_finished` call whose `finish` returns a
remaining count of 1 — the claim requires an unconditional parent `FileTask`
re-push, but the file queue and the submission queue are both unchanged. -/
theorem service_finished_no_unconditional_parent_push :
    (tableFinish stC1.cells stC1.finishedCount taskC1.fileinfo.sha256
      taskC1.service_name (resultBuildKey resultC1 taskC1.config_key)
      resultC1.score resultC1.dropFile).2.2 = 1 ∧
    (service_finished cfgC1 taskC1 resultC1 stC1).fileQueue = stC1.fileQueue ∧
    (service_finished cfgC1 taskC1 resultC1 stC1).submissionQueue =
      stC1.submissionQueue := ⟨rfl, rfl, rfl⟩

/-- C1 (corrected): after persisting the result and marking the cell
Finished, `service_finished` pushes a `FileTask` for the parent file iff the
remaining count returned by the table's `finish` is 0 — not unconditionally —
and it never pushes `{sid}` to the submission queue (no `all_finished` check
is made). -/
theorem service_finished_parent_iff_remaining_zero (cfg : CoreConfig)
    (task : ClientServiceTask) (result : ResultRec) (st : DState) :
    (service_finished cfg task result st).submissionQueue = st.submissionQueue ∧
    ∃ pushed,
      (service_finished cfg task result st).fileQueue = st.fileQueue ++ pushed ∧
      (FileTaskMsg.v2 (parentFileTask task) ∈ pushed ↔
        (tableFinish st.cells st.finishedCount task.fileinfo.sha256
          task.service_name (resultBuildKey result task.config_key)
          result.score result.dropFile).2.2 = 0) := by
  refine ⟨rfl, serviceFinishedPushes cfg task result st,
    service_finished_fileQueue cfg task result st, ?_, ?_⟩
  · intro hmem
    unfold serviceFinishedPushes at hmem
    rcases List.mem_append.mp hmem with h | h
    · exfalso
      rcases Nat.lt_or_ge task.depth cfg.maxExtractionDepth with hlt | hge
      · rw [if_pos hlt] at h
        exact parent_not_in_children st.filesStore task result.extracted h
      · rw [if_neg (Nat.not_lt.mpr hge)] at h
        simp at h
    · by_contra hne
      rw [if_neg hne] at h
      simp at h
  · intro h0
    unfold serviceFinishedPushes
    apply List.mem_append_right
    rw [if_pos h0]
    simp

/-- C1 witness: at a state whose only cell is the one being finished,
`finish` returns 0 and the parent `FileTask` is pushed. -/
theorem service_finished_parent_iff_remaining_zero_witness :
    FileTaskMsg.v2 (parentFileTask taskC1) ∈
      (service_finished cfgC1 taskC1 resultC1 stC1b).fileQueue := by
  obtain ⟨-, pushed, heq, hiff⟩ :=
    service_finished_parent_iff_remaining_zero cfgC1 taskC1 resultC1 stC1b
  rw [heq]
  exact List.mem_append_right _ (hiff.mpr (by decide))

/-- C5: `service_finished` pushes a child `FileTask` with depth
`task.depth + 1` and the parent file's hash for an extracted file iff
`task.depth < max_extraction_depth`; at or beyond the limit no child task is
pushed for any extracted file. -/
theorem service_finished_children_iff_depth (cfg : CoreConfig)
    (task : ClientServiceTask) (result : ResultRec) (st : DState) (sha : String)
    (hsha : sha ∈ result.extracted) :
    ∃ pushed,
      (service_finished cfg task result st).fileQueue = st.fileQueue ++ pushed ∧
      ((childFileTask st.filesStore task sha).depth = task.depth + 1 ∧
       (childFileTask st.filesStore task sha).parent_hash =
         some task.fileinfo.sha256) ∧
      (FileTaskMsg.v2 (childFileTask st.filesStore task sha) ∈ pushed ↔
        task.depth < cfg.maxExtractionDepth) := by
  refine ⟨serviceFinishedPushes cfg task result st,
    service_finished_fileQueue cfg task result st, ⟨rfl, rfl⟩, ?_, ?_⟩
  · intro hmem
    unfold serviceFinishedPushes at hmem
    rcases List.mem_append.mp hmem with h | h
    · by_contra hnd
      rw [if_neg hnd] at h
      simp at h
    · exfalso
      rcases em ((tableFinish st.cells st.finishedCount task.fileinfo.sha256
          task.service_name (resultBuildKey result task.config_key)
          result.score result.dropFile).2.2 = 0) with h0 | h0
      · rw [if_pos h0] at h
        simp at h
        have hd := congrArg ClientFileTask.depth h
        simp [childFileTask, parentFileTask] at hd
      · rw [if_neg h0] at h
        simp at h
  · intro hlt
    unfold serviceFinishedPushes
    apply List.mem_append_left
    rw [if_pos hlt]
    exact List.mem_map_of_mem _ hsha

/-- C5 witness: a depth-1 task below the limit of 3 gets the child task for
its extracted file `E1` pushed. -/
theorem service_finished_children_iff_depth_witness :
    FileTaskMsg.v2 (childFileTask stC1b.filesStore taskC5 "E1") ∈
      (service_finished cfgC1 taskC5 resultC1 stC1b).fileQueue := by
  obtain ⟨pushed, heq, -, hiff⟩ :=
    service_finished_children_iff_depth cfgC1 taskC5 resultC1 stC1b "E1" (by decide)
  rw [heq]
  exact List.mem_append_right _ (hiff.mpr (by decide))

/-- C2 counterexample: with exactly `service_failure_limit(sA) = 2`
non-terminal errors — where the claim's `≥` comparison demands the sentinel —
`_find_results` returns the falsy no-short-circuit value, because the source
compares with a strict `>`. -/
theorem find_results_at_failure_limit :
    nonTerminalErrorCount errsC2 "S" "F" "sA" = schX.serviceFailureLimit "sA" ∧
    terminalErrorSearch errsC2 "S" "F" "sA" = none ∧
    (resC2.lookup (schX.buildResultKey "F" "sA" (config_hash "c"))).isSome = false ∧
    find_results schX resC2 errsC2 "S" "F" "sA" "c" = none := by decide

/-- C2 (corrected): `_find_results` precedence — the cached result key when
the result store has it; otherwise the first matching terminal error id;
otherwise the sentinel, but only when the non-terminal error count is
*strictly greater* than `service_failure_limit(service)`; at or below the
limit, no short-circuit. -/
theorem find_results_precedence (sch : Scheduler)
    (res : List (String × ResultRec)) (errs : List (String × Option ErrorRec))
    (sid f svc config : String) :
    ((res.lookup (sch.buildResultKey f svc (config_hash config))).isSome →
      find_results sch res errs sid f svc config =
        some (sch.buildResultKey f svc (config_hash config))) ∧
    (¬ (res.lookup (sch.buildResultKey f svc (config_hash config))).isSome →
      ∀ eid, terminalErrorSearch errs sid f svc = some eid →
        find_results sch res errs sid f svc config = some eid) ∧
    (¬ (res.lookup (sch.buildResultKey f svc (config_hash config))).isSome →
      terminalErrorSearch errs sid f svc = none →
      sch.serviceFailureLimit svc < nonTerminalErrorCount errs sid f svc →
      find_results sch res errs sid f svc config = some "errors") ∧
    (¬ (res.lookup (sch.buildResultKey f svc (config_hash config))).isSome →
      terminalErrorSearch errs sid f svc = none →
      nonTerminalErrorCount errs sid f svc ≤ sch.serviceFailureLimit svc →
      find_results sch res errs sid f svc config = none) := by
  unfold find_results
  refine ⟨fun h => by rw [if_pos h], fun h eid he => by rw [if_neg h, he],
    fun h he hc => by rw [if_neg h, he, if_pos hc], fun h he hc => ?_⟩
  rw [if_neg h, he, if_neg (Nat.not_lt.mpr hc)]

/-- C2 witness: the result store holds the cache key, so it is returned. -/
theorem find_results_precedence_witness :
    find_results schX resC2 errsC2 "S" "F" "sA" "c0" = some "F.sA.h:c0" :=
  ((find_results_precedence schX resC2 errsC2 "S" "F" "sA" "c0").1
    (by decide)).trans (by decide)

/-- C6 (code bug): when `dispatch_submission` cannot fetch file `h1` it
stores the value of `create_missing_file_error` under a fresh id — but that
value is `None`, because the function constructs the `FAIL_NONRECOVERABLE`
error document and never returns it — then skips the file (no `FileTask` for
`h1`) and continues with the remaining files (the present file `h2` is still
seeded and re-pushed). -/
theorem dispatch_submission_missing_file_stores_none :
    create_missing_file_error subC6 "h1" = none ∧
    (dispatch_submission schX cfgX 100 subC6 stC6).map
        (fun s => (s.errorsStore, s.fileQueue)) =
      some ([("uuid-0", (none : Option ErrorRec))], [FileTaskMsg.v1 taskH2]) :=
  ⟨rfl, rfl⟩

/-- C7 (code bug): file `F` sits at the extraction depth limit and its cell
is `Finished` with a real result of score 100 — the claim (and the spec)
folds that score into `max_score`, but the walk `continue`s at the depth
check before the accumulation lines, so the submission finalizes with no
`max_score` and the default classification. -/
theorem dispatch_submission_skips_score_at_depth_limit :
    stC7.cells.lookup ("F", "sA") = some (.finished "r1" 100 false) ∧
    stC7.resultsStore.lookup "r1" = some resultR1 ∧
    resultR1.score = 100 ∧
    (dispatch_submission schX cfgC7 100 subX stC7).map
        (fun s => (s.submissionsStore.lookup "S").map
          (fun r => (r.maxScore, r.classification, r.state))) =
      some (some (none, "UNRESTRICTED", "completed")) :=
  ⟨rfl, rfl, rfl, rfl⟩

/-- C10: `outstanding_services` is a function of the dispatch table alone
(the cells of `all_results()` and the cached schedules): two states that
agree on those agree on the output, and a state with no status cells yields
the empty map — even when services are still owed for the submission's
files. -/
theorem outstanding_services_from_table_only :
    (∀ st : DState, st.cells = [] → outstanding_services st = []) ∧
    (∀ st st' : DState, st.cells = st'.cells →
      st.schedulesCache = st'.schedulesCache →
      outstanding_services st = outstanding_services st') := by
  constructor
  · intro st h
    unfold outstanding_services
    rw [h]
    rfl
  · intro st st' h1 h2
    unfold outstanding_services
    rw [h1, h2]

/-- C10 witness: a state whose submission still owes `sA` for file `F` (the
schedule is cached, the file and submission stored) but whose table has no
status cell returns the empty map. -/
theorem outstanding_services_from_table_only_witness :
    outstanding_services stC10 = [] :=
  outstanding_services_from_table_only.1 stC10 rfl

/-- `setup_watch_queue` on the STOP branch. -/
theorem setup_watch_queue_stop_eq (sid : String) (st : DState)
    (hz : st.dispatchCount = 0 ∧ st.finishedCount = 0)
    (habs : st.submissionsStore.lookup sid = none ∨
      ∃ sub, st.submissionsStore.lookup sid = some sub ∧
        sub.state = "completed") :
    setup_watch_queue sid st =
      (replyQueueName st.freshId, setupWatchStopState st) := by
  simp only [setup_watch_queue]
  rw [if_pos hz]
  rcases habs with h | ⟨sub, h, hc⟩
  · rw [h]
    rfl
  · rw [h]
    simp only [if_pos hc]
    rfl

/-- `setup_watch_queue` on the nudge branch. -/
theorem setup_watch_queue_nudge_eq (sid : String) (st : DState)
    (hz : st.dispatchCount = 0 ∧ st.finishedCount = 0) (sub : SubmissionRec)
    (hlook : st.submissionsStore.lookup sid = some sub)
    (hcomp : ¬ sub.state = "completed") :
    setup_watch_queue sid st =
      (replyQueueName st.freshId, setupWatchNudgeState sid st) := by
  simp only [setup_watch_queue]
  rw [if_pos hz, hlook]
  simp only [if_neg hcomp]
  rfl

/-- `setup_watch_queue` on the replay branch. -/
theorem setup_watch_queue_replay_eq (sid : String) (st : DState)
    (hz : ¬ (st.dispatchCount = 0 ∧ st.finishedCount = 0)) :
    setup_watch_queue sid st =
      (replyQueueName st.freshId, setupWatchReplayState st) := by
  simp only [setup_watch_queue]
  rw [if_neg hz]
  rfl

/-- C8: `setup_watch_queue(sid)` creates a fresh reply queue whose first
message is START, registers the queue name in the submission's watcher set
and returns the name; when the table has zero dispatched and zero finished
cells it pushes STOP into the new queue if the submission is absent or
already completed and otherwise pushes `{sid}` to the submission queue;
otherwise it replays every current status cell into the new queue, as OK
with the cell's key for non-error cells and FAIL with the cell's key for
error cells. -/
theorem setup_watch_queue_spec (sid : String) (st : DState) :
    (setup_watch_queue sid st).1 = replyQueueName st.freshId ∧
    (setup_watch_queue sid st).2.watcherSet =
      replyQueueName st.freshId :: st.watcherSet ∧
    (((setup_watch_queue sid st).2.watchQueues.lookup
        (replyQueueName st.freshId)).getD []).head? =
      some { status := "START", cache_key := none } ∧
    (st.dispatchCount = 0 → st.finishedCount = 0 →
      ((st.submissionsStore.lookup sid).elim True
        (fun sub => sub.state = "completed")) →
      (setup_watch_queue sid st).2.watchQueues.lookup (replyQueueName st.freshId) =
        some [{ status := "START", cache_key := none },
              { status := "STOP", cache_key := none }] ∧
      (setup_watch_queue sid st).2.submissionQueue = st.submissionQueue) ∧
    (st.dispatchCount = 0 → st.finishedCount = 0 →
      ∀ sub, st.submissionsStore.lookup sid = some sub →
        sub.state ≠ "completed" →
      (setup_watch_queue sid st).2.watchQueues.lookup (replyQueueName st.freshId) =
        some [{ status := "START", cache_key := none }] ∧
      (setup_watch_queue sid st).2.submissionQueue = st.submissionQueue ++ [sid]) ∧
    (¬ (st.dispatchCount = 0 ∧ st.finishedCount = 0) →
      (setup_watch_queue sid st).2.watchQueues.lookup (replyQueueName st.freshId) =
        some ({ status := "START", cache_key := none } ::
          ((allResults st.cells).map (fun fs =>
            fs.2.map (fun sv => statusReplayMessage sv.2))).flatten) ∧
      (setup_watch_queue sid st).2.submissionQueue = st.submissionQueue) := by
  by_cases hz : st.dispatchCount = 0 ∧ st.finishedCount = 0
  · cases hlook : st.submissionsStore.lookup sid with
    | none =>
        have heq := setup_watch_queue_stop_eq sid st hz (Or.inl hlook)
        rw [heq]
        refine ⟨rfl, rfl, ?_, fun _ _ _ => ⟨lookup_saveAssoc _ _ _, rfl⟩,
          fun _ _ sub hsub _ => Option.noConfusion hsub,
          fun hnz => absurd hz hnz⟩
        rw [show (((replyQueueName st.freshId, setupWatchStopState st).2.watchQueues.lookup
            (replyQueueName st.freshId))) = some [{ status := "START", cache_key := none },
              { status := "STOP", cache_key := none }] from lookup_saveAssoc _ _ _]
        rfl
    | some sub =>
        by_cases hcomp : sub.state = "completed"
        · have heq := setup_watch_queue_stop_eq sid st hz (Or.inr ⟨sub, hlook, hcomp⟩)
          rw [heq]
          refine ⟨rfl, rfl, ?_, fun _ _ _ => ⟨lookup_saveAssoc _ _ _, rfl⟩,
            fun _ _ sub' hsub' hne => ?_, fun hnz => absurd hz hnz⟩
          · rw [show (((replyQueueName st.freshId, setupWatchStopState st).2.watchQueues.lookup
              (replyQueueName st.freshId))) = some [{ status := "START", cache_key := none },
                { status := "STOP", cache_key := none }] from lookup_saveAssoc _ _ _]
            rfl
          · exact absurd (Option.some.inj hsub' ▸ hcomp) hne
        · have heq := setup_watch_queue_nudge_eq sid st hz sub hlook hcomp
          rw [heq]
          refine ⟨rfl, rfl, ?_, fun _ _ helim => ?_,
            fun _ _ sub' hsub' _ => ⟨lookup_saveAssoc _ _ _, rfl⟩,
            fun hnz => absurd hz hnz⟩
          · rw [show (((replyQueueName st.freshId, setupWatchNudgeState sid st).2.watchQueues.lookup
              (replyQueueName st.freshId))) = some [{ status := "START", cache_key := none }]
              from lookup_saveAssoc _ _ _]
            rfl
          · exact absurd helim hcomp
  · have heq := setup_watch_queue_replay_eq sid st hz
    rw [heq]
    refine ⟨rfl, rfl, ?_, fun h1 h2 _ => absurd ⟨h1, h2⟩ hz,
      fun h1 h2 _ _ _ => absurd ⟨h1, h2⟩ hz, fun _ => ⟨lookup_saveAssoc _ _ _, rfl⟩⟩
    rw [show (((replyQueueName st.freshId, setupWatchReplayState st).2.watchQueues.lookup
        (replyQueueName st.freshId))) = some ({ status := "START", cache_key := none } ::
          ((allResults st.cells).map (fun fs =>
            fs.2.map (fun sv => statusReplayMessage sv.2))).flatten)
        from lookup_saveAssoc _ _ _]
    rfl

/-- C8 witness: against a non-empty table with one finished and one
terminally-failed cell, the new queue replays START, OK with the result key
and FAIL with the error key. -/
theorem setup_watch_queue_spec_witness :
    (setup_watch_queue "S" stC8).2.watchQueues.lookup (replyQueueName stC8.freshId) =
      some [{ status := "START", cache_key := none },
            { status := "OK", cache_key := some "r1" },
            { status := "FAIL", cache_key := some "e9" }] := by
  have h := ((setup_watch_queue_spec "S" stC8).2.2.2.2.2 (by decide)).1
  exact h.trans (by decide)

/-- Writing a cell makes it the one looked up. -/
theorem setCell_lookup_self (cells : List ((String × String) × StatusCell))
    (f s : String) (c : StatusCell) :
    (setCell cells f s c).lookup (f, s) = some c := by
  simp [setCell, List.lookup]

/-- Writing a cell leaves every other key's cell unchanged. -/
theorem setCell_lookup_ne (cells : List ((String × String) × StatusCell))
    (f s : String) (c : StatusCell) (k : String × String) (hk : k ≠ (f, s)) :
    (setCell cells f s c).lookup k = cells.lookup k := by
  unfold setCell
  have hbk : (k == (f, s)) = false := beq_eq_false_iff_ne.mpr hk
  simp only [List.lookup, hbk]
  induction cells with
  | nil => rfl
  | cons hd t ih =>
      by_cases hhd : hd.1 = (f, s)
      · have hbk2 : (k == hd.1) = false := by
          rw [hhd]
          exact hbk
        rw [List.filter_cons, if_neg (by simp [hhd])]
        rw [ih]
        simp only [List.lookup, hbk2]
      · rw [List.filter_cons, if_pos (by simp [hhd])]
        simp only [List.lookup]
        cases hbeq : (k == hd.1) with
        | true => rfl
        | false => exact ih

/-- The cells component of `tableDispatch` always writes `Dispatched{now}`. -/
theorem tableDispatch_fst (cells : List ((String × String) × StatusCell))
    (dc : Nat) (f s : String) (now : Int) :
    (tableDispatch cells dc f s now).1 = setCell cells f s (.dispatched now) := by
  unfold tableDispatch
  rcases h : cells.lookup (f, s) with - | c
  · rfl
  · cases c <;> rfl

/-- The dispatch-time of another service's cell is unchanged by `setCell`. -/
theorem tableDispatchTime_setCell_ne
    (cells : List ((String × String) × StatusCell)) (f s s' : String)
    (c : StatusCell) (hs : s' ≠ s) :
    tableDispatchTime (setCell cells f s c) f s' = tableDispatchTime cells f s' := by
  unfold tableDispatchTime
  rw [setCell_lookup_ne cells f s c (f, s') (by simp [hs])]

/-- `dispatchStep` on a service still inside its timeout window. -/
theorem dispatchStep_skip (sch : Scheduler) (now : Int) (task : FileTask)
    (cells : List ((String × String) × StatusCell)) (dc : Nat)
    (acc : List (String × ServiceTask)) (oc : String × String)
    (h : now - tableDispatchTime cells task.file_hash oc.1 <
      sch.serviceTimeout oc.1) :
    dispatchStep sch now task (cells, dc, acc) oc = (cells, dc, acc) := by
  simp only [dispatchStep]
  rw [if_pos h]

/-- `dispatchStep` on a service whose timeout window has elapsed. -/
theorem dispatchStep_fire (sch : Scheduler) (now : Int) (task : FileTask)
    (cells : List ((String × String) × StatusCell)) (dc : Nat)
    (acc : List (String × ServiceTask)) (oc : String × String)
    (h : ¬ now - tableDispatchTime cells task.file_hash oc.1 <
      sch.serviceTimeout oc.1) :
    dispatchStep sch now task (cells, dc, acc) oc =
      ((tableDispatch cells dc task.file_hash oc.1 now).1,
       (tableDispatch cells dc task.file_hash oc.1 now).2,
       acc ++ [(service_queue_name oc.1, serviceTaskOf task oc.1 oc.2)]) := by
  simp only [dispatchStep]
  rw [if_neg h]

/-- The dispatch fold only appends to the push list. -/
theorem dispatchFold_pushes_mono (sch : Scheduler) (now : Int) (task : FileTask) :
    ∀ (out : List (String × String)) cells dc
      (acc : List (String × ServiceTask)) (p : String × ServiceTask),
      p ∈ acc → p ∈ (out.foldl (dispatchStep sch now task) (cells, dc, acc)).2.2
  | [], cells, dc, acc, p, hp => hp
  | hd :: t, cells, dc, acc, p, hp => by
      rw [List.foldl_cons]
      by_cases hc : now - tableDispatchTime cells task.file_hash hd.1 <
        sch.serviceTimeout hd.1
      · rw [dispatchStep_skip sch now task cells dc acc hd hc]
        exact dispatchFold_pushes_mono sch now task t cells dc acc p hp
      · rw [dispatchStep_fire sch now task cells dc acc hd hc]
        exact dispatchFold_pushes_mono sch now task t _ _ _ p
          (List.mem_append_left _ hp)

/-- A service not named in the outstanding list keeps its cell and gains no
pushes from the dispatch fold. -/
theorem dispatchFold_not_mem (sch : Scheduler) (now : Int) (task : FileTask)
    (svc : String) :
    ∀ (out : List (String × String)) cells dc
      (acc : List (String × ServiceTask)),
      svc ∉ out.map Prod.fst →
      (out.foldl (dispatchStep sch now task) (cells, dc, acc)).1.lookup
          (task.file_hash, svc) = cells.lookup (task.file_hash, svc) ∧
      (∀ p ∈ (out.foldl (dispatchStep sch now task) (cells, dc, acc)).2.2,
        p ∈ acc ∨ p.2.service_name ≠ svc)
  | [], cells, dc, acc, _ => ⟨rfl, fun p hp => Or.inl hp⟩
  | hd :: t, cells, dc, acc, hnm => by
      have hhd : hd.1 ≠ svc := by
        intro h
        exact hnm (by simp [← h])
      have hnt : svc ∉ t.map Prod.fst := by
        intro h
        exact hnm (List.mem_cons_of_mem _ h)
      rw [List.foldl_cons]
      by_cases hc : now - tableDispatchTime cells task.file_hash hd.1 <
        sch.serviceTimeout hd.1
      · rw [dispatchStep_skip sch now task cells dc acc hd hc]
        exact dispatchFold_not_mem sch now task svc t cells dc acc hnt
      · rw [dispatchStep_fire sch now task cells dc acc hd hc]
        obtain ⟨h1, h2⟩ := dispatchFold_not_mem sch now task svc t _ _ _ hnt
        refine ⟨?_, ?_⟩
        · rw [h1, tableDispatch_fst,
            setCell_lookup_ne _ _ _ _ _ (by simp [Ne.symm hhd])]
        · intro p hp
          rcases h2 p hp with hin | hns
          · rcases List.mem_append.mp hin with hin' | hin'
            · exact Or.inl hin'
            · right
              rw [List.mem_singleton.mp hin']
              exact hhd
          · exact Or.inr hns

/-- Once a cell reads `Dispatched{now}`, the rest of the dispatch fold keeps
it so (a repeat dispatch merely rewrites the same value). -/
theorem dispatchFold_dispatched_stable (sch : Scheduler) (now : Int)
    (task : FileTask) (svc : String) :
    ∀ (out : List (String × String)) cells dc
      (acc : List (String × ServiceTask)),
      cells.lookup (task.file_hash, svc) = some (.dispatched now) →
      (out.foldl (dispatchStep sch now task) (cells, dc, acc)).1.lookup
        (task.file_hash, svc) = some (.dispatched now)
  | [], cells, dc, acc, h => h
  | hd :: t, cells, dc, acc, h => by
      rw [List.foldl_cons]
      by_cases hc : now - tableDispatchTime cells task.file_hash hd.1 <
        sch.serviceTimeout hd.1
      · rw [dispatchStep_skip sch now task cells dc acc hd hc]
        exact dispatchFold_dispatched_stable sch now task svc t cells dc acc h
      · rw [dispatchStep_fire sch now task cells dc acc hd hc]
        apply dispatchFold_dispatched_stable sch now task svc t _ _ _
        rw [tableDispatch_fst]
        by_cases hhd : hd.1 = svc
        · rw [hhd, setCell_lookup_self]
        · rw [setCell_lookup_ne _ _ _ _ _ (by simp [Ne.symm hhd])]
          exact h

/-- The per-service behaviour of the dispatch fold: a member service whose
cell is within its timeout window keeps its cell untouched and gains no push;
a member service whose window has elapsed gets its `ServiceTask` pushed and
its cell set to `Dispatched{now}`. -/
theorem dispatchFold_member (sch : Scheduler) (now : Int) (task : FileTask)
    (svc config : String) :
    ∀ (out : List (String × String)) cells dc
      (acc : List (String × ServiceTask)),
      (svc, config) ∈ out →
      (∀ c', (svc, c') ∈ out → c' = config) →
      (now - tableDispatchTime cells task.file_hash svc <
          sch.serviceTimeout svc →
        (out.foldl (dispatchStep sch now task) (cells, dc, acc)).1.lookup
            (task.file_hash, svc) = cells.lookup (task.file_hash, svc) ∧
        (∀ p ∈ (out.foldl (dispatchStep sch now task) (cells, dc, acc)).2.2,
          p ∈ acc ∨ p.2.service_name ≠ svc)) ∧
      (sch.serviceTimeout svc ≤ now - tableDispatchTime cells task.file_hash svc →
        (service_queue_name svc, serviceTaskOf task svc config) ∈
          (out.foldl (dispatchStep sch now task) (cells, dc, acc)).2.2 ∧
        (out.foldl (dispatchStep sch now task) (cells, dc, acc)).1.lookup
          (task.file_hash, svc) = some (.dispatched now))
  | [], _, _, _, hmem, _ => absurd hmem (List.not_mem_nil _)
  | hd :: t, cells, dc, acc, hmem, huniq => by
      by_cases hhd : hd.1 = svc
      · have hcfg : hd.2 = config := by
          have : (svc, hd.2) ∈ hd :: t := by
            rw [← hhd]
            exact List.mem_cons_self _ _
          exact huniq hd.2 this
        have hhd2 : hd = (svc, config) := by
          obtain ⟨a, b⟩ := hd
          simp only at hhd hcfg
          rw [hhd, hcfg]
        subst hhd2
        constructor
        · intro hlt
          rw [List.foldl_cons]
          rw [dispatchStep_skip sch now task cells dc acc (svc, config) hlt]
          by_cases hm : svc ∈ t.map Prod.fst
          · obtain ⟨x, hx, hx1⟩ := List.mem_map.mp hm
            obtain ⟨a, b⟩ := x
            simp only at hx1
            have hxb : (svc, b) ∈ t := hx1 ▸ hx
            have hb : b = config := huniq b (List.mem_cons_of_mem _ hxb)
            exact (dispatchFold_member sch now task svc config t cells dc acc
              (hb ▸ hxb)
              (fun c' hc' => huniq c' (List.mem_cons_of_mem _ hc'))).1 hlt
          · exact dispatchFold_not_mem sch now task svc t cells dc acc hm
        · intro hge
          rw [List.foldl_cons]
          rw [dispatchStep_fire sch now task cells dc acc (svc, config)
            (not_lt.mpr hge)]
          refine ⟨?_, ?_⟩
          · apply dispatchFold_pushes_mono
            exact List.mem_append_right _ (List.mem_singleton.mpr rfl)
          · apply dispatchFold_dispatched_stable
            rw [tableDispatch_fst, setCell_lookup_self]
      · have hmem' : (svc, config) ∈ t := by
          rcases List.mem_cons.mp hmem with h | h
          · exact absurd (congrArg Prod.fst h.symm) hhd
          · exact h
        have huniq' : ∀ c', (svc, c') ∈ t → c' = config :=
          fun c' hc' => huniq c' (List.mem_cons_of_mem _ hc')
        rw [List.foldl_cons]
        by_cases hc : now - tableDispatchTime cells task.file_hash hd.1 <
          sch.serviceTimeout hd.1
        · rw [dispatchStep_skip sch now task cells dc acc hd hc]
          exact dispatchFold_member sch now task svc config t cells dc acc
            hmem' huniq'
        · rw [dispatchStep_fire sch now task cells dc acc hd hc]
          have ih := dispatchFold_member sch now task svc config t
            (tableDispatch cells dc task.file_hash hd.1 now).1
            (tableDispatch cells dc task.file_hash hd.1 now).2
            (acc ++ [(service_queue_name hd.1, serviceTaskOf task hd.1 hd.2)])
            hmem' huniq'
          have htime : tableDispatchTime
              (tableDispatch cells dc task.file_hash hd.1 now).1
              task.file_hash svc = tableDispatchTime cells task.file_hash svc := by
            rw [tableDispatch_fst]
            exact tableDispatchTime_setCell_ne _ _ _ _ _ (Ne.symm hhd)
          constructor
          · intro hlt
            rw [htime] at ih
            obtain ⟨h1, h2⟩ := ih.1 hlt
            refine ⟨?_, ?_⟩
            · rw [h1, tableDispatch_fst,
                setCell_lookup_ne _ _ _ _ _ (by simp [Ne.symm hhd])]
            · intro p hp
              rcases h2 p hp with hin | hns
              · rcases List.mem_append.mp hin with hin' | hin'
                · exact Or.inl hin'
                · right
                  rw [List.mem_singleton.mp hin']
                  exact hhd
              · exact Or.inr hns
          · intro hge
            rw [htime] at ih
            exact ih.2 hge

/-- Each scan step leaves the outstanding list unchanged or appends the
visited service with its resolved config. -/
theorem scanService_outstanding (sch : Scheduler) (sub : SubmissionRec)
    (res : List (String × ResultRec)) (errs : List (String × Option ErrorRec))
    (f : String) (s : ScanSt) (svc : String) :
    (scanService sch sub res errs f s svc).outstanding = s.outstanding ∨
    (scanService sch sub res errs f s svc).outstanding =
      s.outstanding ++ [(svc, sch.buildServiceConfig svc sub)] := by
  simp only [scanService]
  repeat' split
  all_goals first | exact Or.inl rfl | exact Or.inr rfl

/-- A whole-stage scan appends only services paired with their resolved
configs to the outstanding list. -/
theorem scanFold_outstanding_shape (sch : Scheduler) (sub : SubmissionRec)
    (res : List (String × ResultRec)) (errs : List (String × Option ErrorRec))
    (f : String) :
    ∀ (stage : List String) (s : ScanSt),
      ∃ l, (stage.foldl (scanService sch sub res errs f) s).outstanding =
        s.outstanding ++ l ∧ ∀ x ∈ l, x.2 = sch.buildServiceConfig x.1 sub
  | [], s => ⟨[], by simp, by simp⟩
  | svc :: t, s => by
      rw [List.foldl_cons]
      obtain ⟨l, hl, hlx⟩ := scanFold_outstanding_shape sch sub res errs f t
        (scanService sch sub res errs f s svc)
      rcases scanService_outstanding sch sub res errs f s svc with h | h
      · rw [h] at hl
        exact ⟨l, hl, hlx⟩
      · rw [h, List.append_assoc] at hl
        refine ⟨(svc, sch.buildServiceConfig svc sub) :: l, hl, ?_⟩
        intro x hx
        rcases List.mem_cons.mp hx with hx' | hx'
        · rw [hx']
        · exact hlx x hx'

/-- The stage loop appends only services paired with their resolved configs
to the outstanding list. -/
theorem scanSchedule_outstanding_shape (sch : Scheduler) (sub : SubmissionRec)
    (res : List (String × ResultRec)) (errs : List (String × Option ErrorRec))
    (f : String) :
    ∀ (stages : List (List String)) (s : ScanSt),
      ∃ l, (scanSchedule sch sub res errs f stages s).outstanding =
        s.outstanding ++ l ∧ ∀ x ∈ l, x.2 = sch.buildServiceConfig x.1 sub
  | [], s => ⟨[], by simp [scanSchedule], by simp⟩
  | stage :: rest, s => by
      simp only [scanSchedule]
      split
      · exact scanFold_outstanding_shape sch sub res errs f stage s
      · obtain ⟨l1, hl1, hl1x⟩ := scanFold_outstanding_shape sch sub res errs f
          stage s
        obtain ⟨l2, hl2, hl2x⟩ := scanSchedule_outstanding_shape sch sub res
          errs f rest (stage.foldl (scanService sch sub res errs f) s)
        rw [hl1, List.append_assoc] at hl2
        refine ⟨l1 ++ l2, hl2, ?_⟩
        intro x hx
        rcases List.mem_append.mp hx with hx' | hx'
        · exact hl1x x hx'
        · exact hl2x x hx'

/-- Every outstanding entry of `dispatch_file`'s scan carries the resolved
config of its service. -/
theorem scanOutstanding_config (sch : Scheduler) (sub : SubmissionRec)
    (st : DState) (task : FileTask) (svc config : String)
    (hmem : (svc, config) ∈ scanOutstanding sch sub st task) :
    config = sch.buildServiceConfig svc sub := by
  obtain ⟨l, hl, hlx⟩ := scanSchedule_outstanding_shape sch sub st.resultsStore
    st.errorsStore task.file_hash (sch.buildSchedule sub task.file_type)
    { cells := st.cells, finCount := st.finishedCount, rem := 0
      outstanding := [], cleared := false }
  have hmem' : (svc, config) ∈ ([] : List (String × String)) ++ l := by
    rw [← hl]
    exact hmem
  exact hlx _ (by simpa using hmem')

/-- `dispatch_file`'s core on the branch with outstanding services. -/
theorem dispatchFileCore_outstanding_eq (sch : Scheduler) (now : Int)
    (task : FileTask) (sub : SubmissionRec) (st : DState)
    (h : scanOutstanding sch sub st task ≠ []) :
    dispatchFileCore sch now task sub st =
      { st with
        cells := (dispatchOutstanding sch now task
          (scanOutstanding sch sub st task)
          (scanResult sch sub st task).cells st.dispatchCount).1
        dispatchCount := (dispatchOutstanding sch now task
          (scanOutstanding sch sub st task)
          (scanResult sch sub st task).cells st.dispatchCount).2.1
        finishedCount := (scanResult sch sub st task).finCount
        serviceQueues := st.serviceQueues ++ (dispatchOutstanding sch now task
          (scanOutstanding sch sub st task)
          (scanResult sch sub st task).cells st.dispatchCount).2.2 } := by
  have h' : (scanSchedule sch sub st.resultsStore st.errorsStore task.file_hash
      (sch.buildSchedule sub task.file_type)
      { cells := st.cells, finCount := st.finishedCount, rem := 0
        outstanding := [], cleared := false }).outstanding ≠ [] := h
  simp only [dispatchFileCore]
  rw [if_pos h']
  rfl

/-- `dispatch_file`'s core on the no-outstanding branch. -/
theorem dispatchFileCore_completed_eq (sch : Scheduler) (now : Int)
    (task : FileTask) (sub : SubmissionRec) (st : DState)
    (h : scanOutstanding sch sub st task = []) :
    dispatchFileCore sch now task sub st =
      { st with
        cells := (scanResult sch sub st task).cells
        finishedCount := (scanResult sch sub st task).finCount
        filesCompleted := st.filesCompleted + 1
        submissionQueue :=
          if allFinished (scanResult sch sub st task).cells st.dispatchCount
              (scanResult sch sub st task).finCount st.schedulesCache ∧
              (scanResult sch sub st task).rem = 0
          then st.submissionQueue ++ [sub.sid] else st.submissionQueue } := by
  have h' : ¬ (scanSchedule sch sub st.resultsStore st.errorsStore task.file_hash
      (sch.buildSchedule sub task.file_type)
      { cells := st.cells, finCount := st.finishedCount, rem := 0
        outstanding := [], cleared := false }).outstanding ≠ [] :=
    fun hn => hn h
  simp only [dispatchFileCore]
  rw [if_neg h']
  rfl

/-- C3: for every service the scan finds outstanding, `dispatch_file` skips
it (no push with that service name and an untouched cell) when the elapsed
time since the table's dispatch time is less than `service_timeout(service)`,
and otherwise pushes a `ServiceTask` carrying the resolved service config
onto the queue named `service-queue-<service>` and records the dispatch in
the table. -/
theorem dispatch_file_dispatch_policy (sch : Scheduler) (now : Int)
    (task : FileTask) (st : DState) (sub : SubmissionRec) (svc config : String)
    (hsub : st.submissionsStore.lookup task.sid = some sub)
    (hmem : (svc, config) ∈ scanOutstanding sch sub st task) :
    ∃ st', dispatch_file sch now task st = some st' ∧
      (now - tableDispatchTime (scanResult sch sub st task).cells
          task.file_hash svc < sch.serviceTimeout svc →
        st'.cells.lookup (task.file_hash, svc) =
          (scanResult sch sub st task).cells.lookup (task.file_hash, svc) ∧
        ∃ pushes, st'.serviceQueues = st.serviceQueues ++ pushes ∧
          ∀ p ∈ pushes, p.2.service_name ≠ svc) ∧
      (sch.serviceTimeout svc ≤
          now - tableDispatchTime (scanResult sch sub st task).cells
            task.file_hash svc →
        (service_queue_name svc, serviceTaskOf task svc config) ∈
          st'.serviceQueues ∧
        st'.cells.lookup (task.file_hash, svc) = some (.dispatched now)) := by
  have hne : scanOutstanding sch sub st task ≠ [] := List.ne_nil_of_mem hmem
  have hcore := dispatchFileCore_outstanding_eq sch now task sub st hne
  have huniq : ∀ c', (svc, c') ∈ scanOutstanding sch sub st task → c' = config :=
    fun c' hc' => (scanOutstanding_config sch sub st task svc c' hc').trans
      (scanOutstanding_config sch sub st task svc config hmem).symm
  have hfold := dispatchFold_member sch now task svc config
    (scanOutstanding sch sub st task) (scanResult sch sub st task).cells
    st.dispatchCount [] hmem huniq
  refine ⟨dispatchFileCore sch now task sub st, ?_, ?_, ?_⟩
  · unfold dispatch_file
    rw [hsub]
  · intro hlt
    obtain ⟨h1, h2⟩ := hfold.1 hlt
    rw [hcore]
    refine ⟨h1, (dispatchOutstanding sch now task
      (scanOutstanding sch sub st task) (scanResult sch sub st task).cells
      st.dispatchCount).2.2, rfl, ?_⟩
    intro p hp
    exact (h2 p hp).resolve_left (List.not_mem_nil p)
  · intro hge
    obtain ⟨h1, h2⟩ := hfold.2 hge
    rw [hcore]
    exact ⟨List.mem_append_right _ h1, h2⟩

/-- C3 witness: with an empty table, service `sA` is outstanding for file
`a`; its timeout window (dispatch time 0) has elapsed at time 100, so the
`ServiceTask` carrying the resolved config is pushed and the cell recorded
as `Dispatched{100}`. -/
theorem dispatch_file_dispatch_policy_witness :
    (dispatch_file schX 100 taskA stC3).elim False
      (fun s => (service_queue_name "sA", serviceTaskOf taskA "sA" "cfg-sA") ∈
          s.serviceQueues ∧
        s.cells.lookup ("a", "sA") = some (.dispatched 100)) := by
  obtain ⟨st', h1, -, h3⟩ := dispatch_file_dispatch_policy schX 100 taskA stC3
    subX "sA" "cfg-sA" (by decide) (by decide)
  rw [h1]
  exact h3 (by decide)

/-- C4 counterexample: `dispatch_file` on a state where the in-pass cache
`finish` returns a remaining count of 1 while the table reports
`all_finished` — the claim's iff demands a `{sid}` push, but the submission
queue stays empty (the files-completed counter is still bumped). -/
theorem dispatch_file_all_finished_without_push :
    (dispatch_file schX 100 taskA stC4).map
      (fun s => (s.submissionQueue,
        allFinished s.cells s.dispatchCount s.finishedCount s.schedulesCache,
        s.filesCompleted)) = some ([], true, 1) := by decide

/-- C4 (corrected): whenever `dispatch_file` finds no outstanding services,
it increments the `dispatch.files_completed` counter, and it pushes `{sid}`
onto the submission queue iff the dispatch table reports `all_finished` AND
the remaining count returned by the last in-pass cache `finish` (0 when none
ran) is 0 — not iff `all_finished` alone. -/
theorem dispatch_file_completed_push_iff (sch : Scheduler) (now : Int)
    (task : FileTask) (st : DState) (sub : SubmissionRec)
    (hsub : st.submissionsStore.lookup task.sid = some sub)
    (hout : scanOutstanding sch sub st task = []) :
    ∃ st', dispatch_file sch now task st = some st' ∧
      st'.filesCompleted = st.filesCompleted + 1 ∧
      (st'.submissionQueue = st.submissionQueue ++ [sub.sid] ↔
        (allFinished (scanResult sch sub st task).cells st.dispatchCount
          (scanResult sch sub st task).finCount st.schedulesCache = true ∧
         (scanResult sch sub st task).rem = 0)) ∧
      (¬ (allFinished (scanResult sch sub st task).cells st.dispatchCount
          (scanResult sch sub st task).finCount st.schedulesCache = true ∧
         (scanResult sch sub st task).rem = 0) →
        st'.submissionQueue = st.submissionQueue) := by
  have hcore := dispatchFileCore_completed_eq sch now task sub st hout
  refine ⟨dispatchFileCore sch now task sub st, ?_, ?_, ?_, ?_⟩
  · unfold dispatch_file
    rw [hsub]
  · rw [hcore]
  · rw [hcore]
    by_cases hp : allFinished (scanResult sch sub st task).cells
        st.dispatchCount (scanResult sch sub st task).finCount
        st.schedulesCache = true ∧ (scanResult sch sub st task).rem = 0
    · rw [if_pos hp]
      exact iff_of_true rfl hp
    · rw [if_neg hp]
      refine iff_of_false ?_ hp
      intro he
      have := congrArg List.length he
      simp at this
  · intro hnp
    rw [hcore]
    rw [if_neg hnp]

/-- C4 witness: at the counterexample state the hypotheses hold, the counter
is bumped and — since the remaining count is 1 — no `{sid}` is pushed. -/
theorem dispatch_file_completed_push_iff_witness :
    (dispatch_file schX 100 taskA stC4).elim False
      (fun s => s.filesCompleted = stC4.filesCompleted + 1 ∧
        s.submissionQueue = stC4.submissionQueue) := by
  obtain ⟨st', h1, h2, -, h4⟩ := dispatch_file_completed_push_iff schX 100
    taskA stC4 subX (by decide) (by decide)
  rw [h1]
  exact ⟨h2, h4 (by decide)⟩

/-- A cell with no finished-value is not terminal. -/
theorem cellFinished_none_not_terminal (c : StatusCell)
    (h : cellFinished c = none) : c.isTerminal = false := by
  cases c <;> first | rfl | exact absurd h (by simp [cellFinished])

/-- Equal lookups at a key give equal `finished` values. -/
theorem tableFinished_congr (A B : List ((String × String) × StatusCell))
    (f svc : String) (h : A.lookup (f, svc) = B.lookup (f, svc)) :
    tableFinished A f svc = tableFinished B f svc := by
  unfold tableFinished
  rw [h]

/-- Equal lookups at a key give equal `dropped` values. -/
theorem tableDropped_congr (A B : List ((String × String) × StatusCell))
    (f svc : String) (h : A.lookup (f, svc) = B.lookup (f, svc)) :
    tableDropped A f svc = tableDropped B f svc := by
  unfold tableDropped
  rw [h]

/-- `finish` on an unfinished cell writes the `Finished` cell. -/
theorem tableFinish_fst_of_unfinished
    (cells : List ((String × String) × StatusCell)) (fc : Nat)
    (f svc key : String) (score : Int) (drop : Bool)
    (h : tableFinished cells f svc = none) :
    (tableFinish cells fc f svc key score drop).1 =
      setCell cells f svc (.finished key score drop) := by
  unfold tableFinish
  rcases hl : cells.lookup (f, svc) with - | cell
  · rfl
  · have hcf : cellFinished cell = none := by
      unfold tableFinished at h
      rw [hl] at h
      simpa using h
    simp [cellFinished_none_not_terminal cell hcf]

/-- The finished branch of `scanService`. -/
theorem scanService_eq_finished (sch : Scheduler) (sub : SubmissionRec)
    (res : List (String × ResultRec)) (errs : List (String × Option ErrorRec))
    (f : String) (s : ScanSt) (svc : String) (k : String)
    (h : tableFinished s.cells f svc = some k) :
    scanService sch sub res errs f s svc =
      { s with cleared :=
          if ¬ sub.ignoreFiltering ∧ tableDropped s.cells f svc then true
          else s.cleared } := by
  simp only [scanService, h]
  split <;> rfl

/-- The cache-hit branch of `scanService`: the cell is finished in-pass and
the drop flag honoured. -/
theorem scanService_eq_cachehit (sch : Scheduler) (sub : SubmissionRec)
    (res : List (String × ResultRec)) (errs : List (String × Option ErrorRec))
    (f : String) (s : ScanSt) (svc : String) (k : String) (r : ResultRec)
    (hfin : tableFinished s.cells f svc = none)
    (hf : find_results sch res errs (submissionRepr sub) f svc
      (sch.buildServiceConfig svc sub) = some k)
    (hr : res.lookup k = some r) :
    scanService sch sub res errs f s svc =
      { cells := (tableFinish s.cells s.finCount f svc k r.score r.dropFile).1
        finCount := (tableFinish s.cells s.finCount f svc k r.score r.dropFile).2.1
        rem := (tableFinish s.cells s.finCount f svc k r.score r.dropFile).2.2
        outstanding := s.outstanding
        cleared :=
          if ¬ sub.ignoreFiltering ∧ r.dropFile then true else s.cleared } := by
  simp only [scanService, hfin, hf, hr]
  split <;> rfl

/-- The dead-hit branch of `scanService` (an access key with no stored
result document): a no-op. -/
theorem scanService_eq_deadhit (sch : Scheduler) (sub : SubmissionRec)
    (res : List (String × ResultRec)) (errs : List (String × Option ErrorRec))
    (f : String) (s : ScanSt) (svc : String) (k : String)
    (hfin : tableFinished s.cells f svc = none)
    (hf : find_results sch res errs (submissionRepr sub) f svc
      (sch.buildServiceConfig svc sub) = some k)
    (hr : res.lookup k = none) :
    scanService sch sub res errs f s svc = s := by
  simp only [scanService, hfin, hf, hr]

/-- The miss branch of `scanService`: the service becomes outstanding. -/
theorem scanService_eq_miss (sch : Scheduler) (sub : SubmissionRec)
    (res : List (String × ResultRec)) (errs : List (String × Option ErrorRec))
    (f : String) (s : ScanSt) (svc : String)
    (hfin : tableFinished s.cells f svc = none)
    (hf : find_results sch res errs (submissionRepr sub) f svc
      (sch.buildServiceConfig svc sub) = none) :
    scanService sch sub res errs f s svc =
      { s with outstanding :=
          s.outstanding ++ [(svc, sch.buildServiceConfig svc sub)] } := by
  simp only [scanService, hfin, hf]

/-- The cells after one scan step: unchanged, or an in-pass finish of the
visited service resolved by the result cache. -/
theorem scanService_cells_cases (sch : Scheduler) (sub : SubmissionRec)
    (res : List (String × ResultRec)) (errs : List (String × Option ErrorRec))
    (f : String) (s : ScanSt) (svc : String) :
    (scanService sch sub res errs f s svc).cells = s.cells ∨
    ∃ k r, tableFinished s.cells f svc = none ∧
      find_results sch res errs (submissionRepr sub) f svc
        (sch.buildServiceConfig svc sub) = some k ∧
      res.lookup k = some r ∧
      (scanService sch sub res errs f s svc).cells =
        setCell s.cells f svc (.finished k r.score r.dropFile) := by
  rcases hfin : tableFinished s.cells f svc with - | k
  · rcases hf : find_results sch res errs (submissionRepr sub) f svc
        (sch.buildServiceConfig svc sub) with - | k
    · rw [scanService_eq_miss sch sub res errs f s svc hfin hf]
      exact Or.inl rfl
    · rcases hr : res.lookup k with - | r
      · rw [scanService_eq_deadhit sch sub res errs f s svc k hfin hf hr]
        exact Or.inl rfl
      · rw [scanService_eq_cachehit sch sub res errs f s svc k r hfin hf hr]
        right
        exact ⟨k, r, rfl, rfl, hr,
          tableFinish_fst_of_unfinished s.cells s.finCount f svc k
            r.score r.dropFile hfin⟩
  · rw [scanService_eq_finished sch sub res errs f s svc k hfin]
    exact Or.inl rfl

/-- `ScanEvolve` is reflexive. -/
theorem scanEvolve_refl (sch : Scheduler) (sub : SubmissionRec)
    (res : List (String × ResultRec)) (errs : List (String × Option ErrorRec))
    (f : String) (A : List ((String × String) × StatusCell)) :
    ScanEvolve sch sub res errs f A A :=
  ⟨fun _ _ => rfl, fun _ h _ => h⟩

/-- `ScanEvolve` is transitive. -/
theorem scanEvolve_trans (sch : Scheduler) (sub : SubmissionRec)
    (res : List (String × ResultRec)) (errs : List (String × Option ErrorRec))
    (f : String) (A B C : List ((String × String) × StatusCell))
    (h1 : ScanEvolve sch sub res errs f A B)
    (h2 : ScanEvolve sch sub res errs f B C) :
    ScanEvolve sch sub res errs f A C := by
  constructor
  · intro svc hs
    have hAB := h1.1 svc hs
    have hBfin : (tableFinished B f svc).isSome := by
      rw [tableFinished_congr B A f svc hAB]
      exact hs
    rw [h2.1 svc hBfin, hAB]
  · intro svc hn hnf
    have hBn : tableFinished B f svc = none := h1.2 svc hn hnf
    exact h2.2 svc hBn hnf

/-- One scan step evolves the cells. -/
theorem scanEvolve_step (sch : Scheduler) (sub : SubmissionRec)
    (res : List (String × ResultRec)) (errs : List (String × Option ErrorRec))
    (f : String) (s : ScanSt) (svc : String) :
    ScanEvolve sch sub res errs f s.cells
      (scanService sch sub res errs f s svc).cells := by
  rcases scanService_cells_cases sch sub res errs f s svc with h |
    ⟨k, r, hfin, hf, hr, h⟩
  · rw [h]
    exact scanEvolve_refl sch sub res errs f s.cells
  · rw [h]
    constructor
    · intro svc' hs
      have hne : svc' ≠ svc := by
        intro he
        rw [he, hfin] at hs
        exact absurd hs (by simp)
      exact setCell_lookup_ne _ _ _ _ _ (by simp [hne])
    · intro svc' hn hnf
      by_cases hne : svc' = svc
      · exfalso
        rw [hne] at hnf
        unfold NoFinisher at hnf
        rw [hf] at hnf
        rw [hnf] at hr
        exact Option.noConfusion hr
      · unfold tableFinished at hn ⊢
        rw [setCell_lookup_ne _ _ _ _ _ (by simp [hne])]
        exact hn

/-- A whole-stage scan evolves the cells. -/
theorem scanEvolve_fold (sch : Scheduler) (sub : SubmissionRec)
    (res : List (String × ResultRec)) (errs : List (String × Option ErrorRec))
    (f : String) :
    ∀ (svcs : List String) (s : ScanSt),
      ScanEvolve sch sub res errs f s.cells
        ((svcs.foldl (scanService sch sub res errs f) s).cells)
  | [], s => scanEvolve_refl sch sub res errs f s.cells
  | svc :: t, s => by
      rw [List.foldl_cons]
      exact scanEvolve_trans sch sub res errs f _ _ _
        (scanEvolve_step sch sub res errs f s svc)
        (scanEvolve_fold sch sub res errs f t
          (scanService sch sub res errs f s svc))

/-- The stage loop evolves the cells. -/
theorem scanEvolve_schedule (sch : Scheduler) (sub : SubmissionRec)
    (res : List (String × ResultRec)) (errs : List (String × Option ErrorRec))
    (f : String) :
    ∀ (stages : List (List String)) (s : ScanSt),
      ScanEvolve sch sub res errs f s.cells
        ((scanSchedule sch sub res errs f stages s).cells)
  | [], s => scanEvolve_refl sch sub res errs f s.cells
  | stage :: rest, s => by
      simp only [scanSchedule]
      split
      · exact scanEvolve_fold sch sub res errs f stage s
      · exact scanEvolve_trans sch sub res errs f _ _ _
          (scanEvolve_fold sch sub res errs f stage s)
          (scanEvolve_schedule sch sub res errs f rest
            (stage.foldl (scanService sch sub res errs f) s))

/-- Pushing the finished-cell agreement and the unfinished-stays-unfinished
facts from a mid-scan state through the remaining fold, the evolve
hypothesis and the preserved table. -/
theorem scanStable_chain (sch : Scheduler) (sub : SubmissionRec)
    (res : List (String × ResultRec)) (errs : List (String × Option ErrorRec))
    (f : String) (Final T : List ((String × String) × StatusCell))
    (Hp : ScanPreserved f T Final) (t : List String) (s₁ : ScanSt)
    (hev : ScanEvolve sch sub res errs f
      ((t.foldl (scanService sch sub res errs f) s₁).cells) Final) :
    (∀ svc', (tableFinished s₁.cells f svc').isSome →
      T.lookup (f, svc') = s₁.cells.lookup (f, svc')) ∧
    (∀ svc', tableFinished s₁.cells f svc' = none →
      NoFinisher sch sub res errs f svc' → tableFinished T f svc' = none) := by
  constructor
  · intro svc' h
    have hB := (scanEvolve_fold sch sub res errs f t s₁).1 svc' h
    have hBsome : (tableFinished
        ((t.foldl (scanService sch sub res errs f) s₁).cells) f svc').isSome := by
      rw [tableFinished_congr _ _ _ _ hB]
      exact h
    have hF := hev.1 svc' hBsome
    have hFsome : (tableFinished Final f svc').isSome := by
      rw [tableFinished_congr _ _ _ _ hF, tableFinished_congr _ _ _ _ hB]
      exact h
    rw [Hp.1 svc' hFsome, hF, hB]
  · intro svc' h hnf
    exact Hp.2 svc'
      (hev.2 svc' ((scanEvolve_fold sch sub res errs f t s₁).2 svc' h hnf) hnf)

/-- A second scan of a stage against the dispatch-phase table is a no-op on
the table and reproduces the outstanding list and the cleared flag. -/
theorem scanFold_stable (sch : Scheduler) (sub : SubmissionRec)
    (res : List (String × ResultRec)) (errs : List (String × Option ErrorRec))
    (f : String) (Final T : List ((String × String) × StatusCell))
    (Hp : ScanPreserved f T Final) :
    ∀ (svcs : List String) (s : ScanSt) (fc2 rem2 : Nat),
      ScanEvolve sch sub res errs f
        ((svcs.foldl (scanService sch sub res errs f) s).cells) Final →
      svcs.foldl (scanService sch sub res errs f)
          { cells := T, finCount := fc2, rem := rem2
            outstanding := s.outstanding, cleared := s.cleared } =
        { cells := T, finCount := fc2, rem := rem2
          outstanding := (svcs.foldl (scanService sch sub res errs f) s).outstanding
          cleared := (svcs.foldl (scanService sch sub res errs f) s).cleared }
  | [], _, _, _, _ => rfl
  | svc :: t, s, fc2, rem2, hev => by
      rw [List.foldl_cons] at hev ⊢
      rw [List.foldl_cons]
      have hchain := scanStable_chain sch sub res errs f Final T Hp t
        (scanService sch sub res errs f s svc) hev
      have hmain : scanService sch sub res errs f
          { cells := T, finCount := fc2, rem := rem2
            outstanding := s.outstanding, cleared := s.cleared } svc =
          { cells := T, finCount := fc2, rem := rem2
            outstanding := (scanService sch sub res errs f s svc).outstanding
            cleared := (scanService sch sub res errs f s svc).cleared } := by
        rcases hfin : tableFinished s.cells f svc with - | k
        · rcases hf : find_results sch res errs (submissionRepr sub) f svc
              (sch.buildServiceConfig svc sub) with - | k
          · have hs₁eq := scanService_eq_miss sch sub res errs f s svc hfin hf
            have hnf : NoFinisher sch sub res errs f svc := by
              unfold NoFinisher
              rw [hf]
              trivial
            have hs₁fin : tableFinished
                (scanService sch sub res errs f s svc).cells f svc = none := by
              rw [hs₁eq]
              exact hfin
            have hTnone : tableFinished T f svc = none :=
              hchain.2 svc hs₁fin hnf
            rw [scanService_eq_miss sch sub res errs f
              { cells := T, finCount := fc2, rem := rem2
                outstanding := s.outstanding, cleared := s.cleared } svc
              hTnone hf, hs₁eq]
          · rcases hr : res.lookup k with - | r
            · have hs₁eq := scanService_eq_deadhit sch sub res errs f s svc k
                hfin hf hr
              have hnf : NoFinisher sch sub res errs f svc := by
                unfold NoFinisher
                rw [hf]
                exact hr
              have hs₁fin : tableFinished
                  (scanService sch sub res errs f s svc).cells f svc = none := by
                rw [hs₁eq]
                exact hfin
              have hTnone : tableFinished T f svc = none :=
                hchain.2 svc hs₁fin hnf
              rw [scanService_eq_deadhit sch sub res errs f
                { cells := T, finCount := fc2, rem := rem2
                  outstanding := s.outstanding, cleared := s.cleared } svc k
                hTnone hf hr, hs₁eq]
            · have hs₁eq := scanService_eq_cachehit sch sub res errs f s svc k
                r hfin hf hr
              have hset := tableFinish_fst_of_unfinished s.cells s.finCount f
                svc k r.score r.dropFile hfin
              have hcl : (scanService sch sub res errs f s svc).cells.lookup
                  (f, svc) = some (.finished k r.score r.dropFile) := by
                rw [hs₁eq]
                show (tableFinish s.cells s.finCount f svc k r.score
                  r.dropFile).1.lookup (f, svc) = _
                rw [hset]
                exact setCell_lookup_self _ _ _ _
              have hs₁fin : (tableFinished
                  (scanService sch sub res errs f s svc).cells f svc).isSome := by
                unfold tableFinished
                rw [hcl]
                rfl
              have hTl := (hchain.1 svc hs₁fin).trans hcl
              have hfinT : tableFinished T f svc = some k := by
                unfold tableFinished
                rw [hTl]
                rfl
              have hdropT : tableDropped T f svc = r.dropFile := by
                unfold tableDropped
                rw [hTl]
              rw [scanService_eq_finished sch sub res errs f
                { cells := T, finCount := fc2, rem := rem2
                  outstanding := s.outstanding, cleared := s.cleared } svc k
                hfinT, hs₁eq]
              simp only [hdropT]
        · have hs₁eq := scanService_eq_finished sch sub res errs f s svc k
            hfin
          have hs₁fin : (tableFinished
              (scanService sch sub res errs f s svc).cells f svc).isSome := by
            rw [hs₁eq]
            show (tableFinished s.cells f svc).isSome
            rw [hfin]
            rfl
          have hs₁l : (scanService sch sub res errs f s svc).cells.lookup
              (f, svc) = s.cells.lookup (f, svc) := by
            rw [hs₁eq]
          have hTl : T.lookup (f, svc) = s.cells.lookup (f, svc) :=
            (hchain.1 svc hs₁fin).trans hs₁l
          have hfinT : tableFinished T f svc = some k := by
            rw [tableFinished_congr T s.cells f svc hTl]
            exact hfin
          have hdropT : tableDropped T f svc = tableDropped s.cells f svc :=
            tableDropped_congr T s.cells f svc hTl
          rw [scanService_eq_finished sch sub res errs f
            { cells := T, finCount := fc2, rem := rem2
              outstanding := s.outstanding, cleared := s.cleared } svc k
            hfinT, hs₁eq]
          simp only [hdropT]
      rw [hmain]
      exact scanFold_stable sch sub res errs f Final T Hp t
        (scanService sch sub res errs f s svc) fc2 rem2 hev
/-- The stage loop stops after a stage that cleared or left services
outstanding. -/
theorem scanSchedule_cons_stop (sch : Scheduler) (sub : SubmissionRec)
    (res : List (String × ResultRec)) (errs : List (String × Option ErrorRec))
    (f : String) (stage : List String) (rest : List (List String)) (s : ScanSt)
    (h : (stage.foldl (scanService sch sub res errs f) s).cleared = true ∨
      (stage.foldl (scanService sch sub res errs f) s).outstanding ≠ []) :
    scanSchedule sch sub res errs f (stage :: rest) s =
      stage.foldl (scanService sch sub res errs f) s := by
  simp only [scanSchedule]
  rw [if_pos h]

/-- The stage loop continues past a stage that neither cleared nor left a
service outstanding. -/
theorem scanSchedule_cons_go (sch : Scheduler) (sub : SubmissionRec)
    (res : List (String × ResultRec)) (errs : List (String × Option ErrorRec))
    (f : String) (stage : List String) (rest : List (List String)) (s : ScanSt)
    (h : ¬ ((stage.foldl (scanService sch sub res errs f) s).cleared = true ∨
      (stage.foldl (scanService sch sub res errs f) s).outstanding ≠ [])) :
    scanSchedule sch sub res errs f (stage :: rest) s =
      scanSchedule sch sub res errs f rest
        (stage.foldl (scanService sch sub res errs f) s) := by
  simp only [scanSchedule]
  rw [if_neg h]

/-- A second run of the whole stage loop against the dispatch-phase table is
a no-op on the table and reproduces the outstanding list and the cleared
flag. -/
theorem scanSchedule_stable (sch : Scheduler) (sub : SubmissionRec)
    (res : List (String × ResultRec)) (errs : List (String × Option ErrorRec))
    (f : String) (Final T : List ((String × String) × StatusCell))
    (Hp : ScanPreserved f T Final) :
    ∀ (stages : List (List String)) (s : ScanSt) (fc2 rem2 : Nat),
      ScanEvolve sch sub res errs f
        ((scanSchedule sch sub res errs f stages s).cells) Final →
      scanSchedule sch sub res errs f stages
          { cells := T, finCount := fc2, rem := rem2
            outstanding := s.outstanding, cleared := s.cleared } =
        { cells := T, finCount := fc2, rem := rem2
          outstanding := (scanSchedule sch sub res errs f stages s).outstanding
          cleared := (scanSchedule sch sub res errs f stages s).cleared }
  | [], _, _, _, _ => rfl
  | stage :: rest, s, fc2, rem2, hev => by
      by_cases hc : (stage.foldl (scanService sch sub res errs f) s).cleared =
          true ∨ (stage.foldl (scanService sch sub res errs f) s).outstanding ≠ []
      · have h1 := scanSchedule_cons_stop sch sub res errs f stage rest s hc
        rw [h1] at hev
        have hfold := scanFold_stable sch sub res errs f Final T Hp stage s
          fc2 rem2 hev
        have hc2 : (stage.foldl (scanService sch sub res errs f)
              { cells := T, finCount := fc2, rem := rem2
                outstanding := s.outstanding, cleared := s.cleared }).cleared =
              true ∨
            (stage.foldl (scanService sch sub res errs f)
              { cells := T, finCount := fc2, rem := rem2
                outstanding := s.outstanding, cleared := s.cleared }).outstanding
              ≠ [] := by
          rw [hfold]
          exact hc
        have h2 := scanSchedule_cons_stop sch sub res errs f stage rest
          { cells := T, finCount := fc2, rem := rem2
            outstanding := s.outstanding, cleared := s.cleared } hc2
        rw [h1, h2, hfold]
      · have h1 := scanSchedule_cons_go sch sub res errs f stage rest s hc
        rw [h1] at hev
        have hevfold : ScanEvolve sch sub res errs f
            ((stage.foldl (scanService sch sub res errs f) s).cells) Final :=
          scanEvolve_trans sch sub res errs f _ _ _
            (scanEvolve_schedule sch sub res errs f rest
              (stage.foldl (scanService sch sub res errs f) s)) hev
        have hfold := scanFold_stable sch sub res errs f Final T Hp stage s
          fc2 rem2 hevfold
        have hc2 : ¬ ((stage.foldl (scanService sch sub res errs f)
              { cells := T, finCount := fc2, rem := rem2
                outstanding := s.outstanding, cleared := s.cleared }).cleared =
              true ∨
            (stage.foldl (scanService sch sub res errs f)
              { cells := T, finCount := fc2, rem := rem2
                outstanding := s.outstanding, cleared := s.cleared }).outstanding
              ≠ []) := by
          rw [hfold]
          exact hc
        have h2 := scanSchedule_cons_go sch sub res errs f stage rest
          { cells := T, finCount := fc2, rem := rem2
            outstanding := s.outstanding, cleared := s.cleared } hc2
        rw [h1, h2, hfold]
        exact scanSchedule_stable sch sub res errs f Final T Hp rest
          (stage.foldl (scanService sch sub res errs f) s) fc2 rem2 hev

/-- A scan step preserves the outstanding-services invariant: every
outstanding service has no in-pass finisher and an unfinished cell. -/
theorem scanService_out_unfin (sch : Scheduler) (sub : SubmissionRec)
    (res : List (String × ResultRec)) (errs : List (String × Option ErrorRec))
    (f : String) (s : ScanSt) (svc : String)
    (H : OutUnfin sch sub res errs f s) :
    OutUnfin sch sub res errs f (scanService sch sub res errs f s svc) := by
  intro p hp
  have hcells := scanEvolve_step sch sub res errs f s svc
  rcases scanService_outstanding sch sub res errs f s svc with ho | ho
  · rw [ho] at hp
    obtain ⟨hnf, hunf⟩ := H p hp
    exact ⟨hnf, hcells.2 p.1 hunf hnf⟩
  · rw [ho] at hp
    rcases List.mem_append.mp hp with hp' | hp'
    · obtain ⟨hnf, hunf⟩ := H p hp'
      exact ⟨hnf, hcells.2 p.1 hunf hnf⟩
    · have hpe : p = (svc, sch.buildServiceConfig svc sub) :=
        List.mem_singleton.mp hp'
      rcases hfin : tableFinished s.cells f svc with - | k
      · rcases hf : find_results sch res errs (submissionRepr sub) f svc
            (sch.buildServiceConfig svc sub) with - | k2
        · have hs₁eq := scanService_eq_miss sch sub res errs f s svc hfin hf
          have hnf : NoFinisher sch sub res errs f svc := by
            unfold NoFinisher
            rw [hf]
            trivial
          constructor
          · rw [hpe]
            exact hnf
          · rw [hpe, hs₁eq]
            exact hfin
        · rcases hr : res.lookup k2 with - | r
          · have hde := scanService_eq_deadhit sch sub res errs f s svc k2
              hfin hf hr
            rw [hde] at ho
            exact absurd ho (by simp)
          · have hch := scanService_eq_cachehit sch sub res errs f s svc k2 r
              hfin hf hr
            rw [hch] at ho
            exact absurd ho (by simp)
      · have hfi := scanService_eq_finished sch sub res errs f s svc k hfin
        rw [hfi] at ho
        exact absurd ho (by simp)

/-- A whole-stage scan preserves the outstanding-services invariant. -/
theorem scanFold_out_unfin (sch : Scheduler) (sub : SubmissionRec)
    (res : List (String × ResultRec)) (errs : List (String × Option ErrorRec))
    (f : String) :
    ∀ (stage : List String) (s : ScanSt), OutUnfin sch sub res errs f s →
      OutUnfin sch sub res errs f (stage.foldl (scanService sch sub res errs f) s)
  | [], _, H => H
  | svc :: t, s, H => by
      rw [List.foldl_cons]
      exact scanFold_out_unfin sch sub res errs f t
        (scanService sch sub res errs f s svc)
        (scanService_out_unfin sch sub res errs f s svc H)

/-- The stage loop preserves the outstanding-services invariant. -/
theorem scanSchedule_out_unfin (sch : Scheduler) (sub : SubmissionRec)
    (res : List (String × ResultRec)) (errs : List (String × Option ErrorRec))
    (f : String) :
    ∀ (stages : List (List String)) (s : ScanSt), OutUnfin sch sub res errs f s →
      OutUnfin sch sub res errs f (scanSchedule sch sub res errs f stages s)
  | [], _, H => H
  | stage :: rest, s, H => by
      simp only [scanSchedule]
      split
      · exact scanFold_out_unfin sch sub res errs f stage s H
      · exact scanSchedule_out_unfin sch sub res errs f rest
          (stage.foldl (scanService sch sub res errs f) s)
          (scanFold_out_unfin sch sub res errs f stage s H)

/-- A cell after the dispatch fold: unchanged, or rewritten to
`Dispatched{now}`. -/
theorem dispatchFold_lookup_or_now (sch : Scheduler) (now : Int)
    (task : FileTask) :
    ∀ (out : List (String × String)) cells dc
      (acc : List (String × ServiceTask)) (key : String × String),
      (out.foldl (dispatchStep sch now task) (cells, dc, acc)).1.lookup key =
        cells.lookup key ∨
      (out.foldl (dispatchStep sch now task) (cells, dc, acc)).1.lookup key =
        some (.dispatched now)
  | [], _, _, _, _ => Or.inl rfl
  | hd :: t, cells, dc, acc, key => by
      rw [List.foldl_cons]
      by_cases hc : now - tableDispatchTime cells task.file_hash hd.1 <
        sch.serviceTimeout hd.1
      · rw [dispatchStep_skip sch now task cells dc acc hd hc]
        exact dispatchFold_lookup_or_now sch now task t cells dc acc key
      · rw [dispatchStep_fire sch now task cells dc acc hd hc,
          tableDispatch_fst]
        rcases dispatchFold_lookup_or_now sch now task t
            (setCell cells task.file_hash hd.1 (.dispatched now))
            (tableDispatch cells dc task.file_hash hd.1 now).2
            (acc ++ [(service_queue_name hd.1, serviceTaskOf task hd.1 hd.2)])
            key with h | h
        · by_cases hk : key = (task.file_hash, hd.1)
          · right
            rw [h, hk, setCell_lookup_self]
          · left
            rw [h, setCell_lookup_ne _ _ _ _ _ hk]
        · exact Or.inr h

/-- After the dispatch fold, every member service sits inside its timeout
window (its cell timestamp is either untouched and was inside the window, or
was just refreshed to `now`), provided timeouts are positive. -/
theorem dispatchFold_window (sch : Scheduler) (now : Int) (task : FileTask)
    (Htm : ∀ svc, 0 < sch.serviceTimeout svc) :
    ∀ (out : List (String × String)) cells dc
      (acc : List (String × ServiceTask)) (oc : String × String),
      oc ∈ out →
      now - tableDispatchTime
          (out.foldl (dispatchStep sch now task) (cells, dc, acc)).1
          task.file_hash oc.1 < sch.serviceTimeout oc.1
  | [], _, _, _, _, h => absurd h (List.not_mem_nil _)
  | hd :: t, cells, dc, acc, oc, h => by
      rw [List.foldl_cons]
      by_cases hc : now - tableDispatchTime cells task.file_hash hd.1 <
        sch.serviceTimeout hd.1
      · rw [dispatchStep_skip sch now task cells dc acc hd hc]
        rcases List.mem_cons.mp h with he | ht
        · rcases dispatchFold_lookup_or_now sch now task t cells dc acc
              (task.file_hash, oc.1) with h1 | h1
          · have h2 : tableDispatchTime
                (t.foldl (dispatchStep sch now task) (cells, dc, acc)).1
                task.file_hash oc.1 = tableDispatchTime cells task.file_hash
                oc.1 := by
              unfold tableDispatchTime
              rw [h1]
            rw [h2, he]
            exact hc
          · have h2 : tableDispatchTime
                (t.foldl (dispatchStep sch now task) (cells, dc, acc)).1
                task.file_hash oc.1 = now := by
              unfold tableDispatchTime
              rw [h1]
            rw [h2, sub_self]
            exact Htm oc.1
        · exact dispatchFold_window sch now task Htm t cells dc acc oc ht
      · rw [dispatchStep_fire sch now task cells dc acc hd hc]
        rcases List.mem_cons.mp h with he | ht
        · have hcell := dispatchFold_dispatched_stable sch now task hd.1 t
            (tableDispatch cells dc task.file_hash hd.1 now).1
            (tableDispatch cells dc task.file_hash hd.1 now).2
            (acc ++ [(service_queue_name hd.1, serviceTaskOf task hd.1 hd.2)])
            (by rw [tableDispatch_fst, setCell_lookup_self])
          have h2 : tableDispatchTime
              (t.foldl (dispatchStep sch now task)
                ((tableDispatch cells dc task.file_hash hd.1 now).1,
                 (tableDispatch cells dc task.file_hash hd.1 now).2,
                 acc ++ [(service_queue_name hd.1,
                   serviceTaskOf task hd.1 hd.2)])).1
              task.file_hash oc.1 = now := by
            rw [he]
            unfold tableDispatchTime
            rw [hcell]
          rw [h2, sub_self]
          exact Htm oc.1
        · exact dispatchFold_window sch now task Htm t
            (tableDispatch cells dc task.file_hash hd.1 now).1
            (tableDispatch cells dc task.file_hash hd.1 now).2
            (acc ++ [(service_queue_name hd.1, serviceTaskOf task hd.1 hd.2)])
            oc ht

/-- The dispatch fold is the identity when every member service is inside
its timeout window. -/
theorem dispatchFold_all_skip (sch : Scheduler) (now : Int) (task : FileTask) :
    ∀ (out : List (String × String)) cells dc
      (acc : List (String × ServiceTask)),
      (∀ oc ∈ out, now - tableDispatchTime cells task.file_hash oc.1 <
        sch.serviceTimeout oc.1) →
      out.foldl (dispatchStep sch now task) (cells, dc, acc) = (cells, dc, acc)
  | [], _, _, _, _ => rfl
  | hd :: t, cells, dc, acc, H => by
      rw [List.foldl_cons,
        dispatchStep_skip sch now task cells dc acc hd
          (H hd (List.mem_cons_self _ _))]
      exact dispatchFold_all_skip sch now task t cells dc acc
        (fun oc h => H oc (List.mem_cons_of_mem _ h))

/-- The dispatch fold preserves the scan outcome: finished cells keep their
lookups and unfinished services stay unfinished, provided every dispatched
service was unfinished after the scan. -/
theorem dispatchFold_scan_preserved (sch : Scheduler) (now : Int)
    (task : FileTask) (out : List (String × String))
    (Final : List ((String × String) × StatusCell)) (dc : Nat)
    (Hout : ∀ p ∈ out, tableFinished Final task.file_hash p.1 = none) :
    ScanPreserved task.file_hash
      (out.foldl (dispatchStep sch now task) (Final, dc, [])).1 Final := by
  constructor
  · intro svc hs
    by_cases hm : svc ∈ out.map Prod.fst
    · obtain ⟨p, hp, hp1⟩ := List.mem_map.mp hm
      have hn := Hout p hp
      rw [hp1] at hn
      rw [hn] at hs
      exact absurd hs (by simp)
    · exact (dispatchFold_not_mem sch now task svc out Final dc [] hm).1
  · intro svc hn
    rcases dispatchFold_lookup_or_now sch now task out Final dc []
        (task.file_hash, svc) with h | h
    · unfold tableFinished at hn ⊢
      rw [h]
      exact hn
    · unfold tableFinished
      rw [h]
      rfl

/-- `dispatch_file`'s core does not touch the submission store. -/
theorem dispatchFileCore_submissions (sch : Scheduler) (now : Int)
    (task : FileTask) (sub : SubmissionRec) (st : DState) :
    (dispatchFileCore sch now task sub st).submissionsStore =
      st.submissionsStore := by
  by_cases h : scanOutstanding sch sub st task ≠ []
  · rw [dispatchFileCore_outstanding_eq sch now task sub st h]
  · rw [dispatchFileCore_completed_eq sch now task sub st (not_not.mp h)]

/-- Re-running `dispatch_file`'s core against the output of a run that
dispatched services leaves the table untouched: the scan reproduces itself
against the dispatch-phase table, and every outstanding service is now
inside its (positive) timeout window. -/
theorem dispatchFileCore_table_stable_out (sch : Scheduler) (now : Int)
    (task : FileTask) (sub : SubmissionRec) (st st₁ : DState)
    (Htm : ∀ svc, 0 < sch.serviceTimeout svc)
    (hout : scanOutstanding sch sub st task ≠ [])
    (hc : st₁.cells = (dispatchOutstanding sch now task
        (scanOutstanding sch sub st task)
        (scanResult sch sub st task).cells st.dispatchCount).1)
    (hr : st₁.resultsStore = st.resultsStore)
    (he : st₁.errorsStore = st.errorsStore) :
    dispatchTable (dispatchFileCore sch now task sub st₁) =
      dispatchTable st₁ := by
  have hU : OutUnfin sch sub st.resultsStore st.errorsStore task.file_hash
      (scanResult sch sub st task) :=
    scanSchedule_out_unfin sch sub st.resultsStore st.errorsStore
      task.file_hash (sch.buildSchedule sub task.file_type)
      { cells := st.cells, finCount := st.finishedCount, rem := 0
        outstanding := [], cleared := false }
      (fun p hp => absurd hp (List.not_mem_nil p))
  have hP : ScanPreserved task.file_hash
      (dispatchOutstanding sch now task (scanOutstanding sch sub st task)
        (scanResult sch sub st task).cells st.dispatchCount).1
      (scanResult sch sub st task).cells := by
    simp only [dispatchOutstanding]
    exact dispatchFold_scan_preserved sch now task
      (scanOutstanding sch sub st task) (scanResult sch sub st task).cells
      st.dispatchCount (fun p hp => (hU p hp).2)
  have hscan2 : scanResult sch sub st₁ task =
      { cells := st₁.cells, finCount := st₁.finishedCount, rem := 0
        outstanding := (scanResult sch sub st task).outstanding
        cleared := (scanResult sch sub st task).cleared } := by
    show scanSchedule sch sub st₁.resultsStore st₁.errorsStore task.file_hash
        (sch.buildSchedule sub task.file_type)
        { cells := st₁.cells, finCount := st₁.finishedCount, rem := 0
          outstanding := [], cleared := false } = _
    rw [hr, he, hc]
    exact scanSchedule_stable sch sub st.resultsStore st.errorsStore
      task.file_hash (scanResult sch sub st task).cells
      (dispatchOutstanding sch now task (scanOutstanding sch sub st task)
        (scanResult sch sub st task).cells st.dispatchCount).1 hP
      (sch.buildSchedule sub task.file_type)
      { cells := st.cells, finCount := st.finishedCount, rem := 0
        outstanding := [], cleared := false }
      st₁.finishedCount 0
      (scanEvolve_refl sch sub st.resultsStore st.errorsStore task.file_hash
        (scanResult sch sub st task).cells)
  have hout2 : scanOutstanding sch sub st₁ task ≠ [] := by
    show (scanResult sch sub st₁ task).outstanding ≠ []
    rw [hscan2]
    exact hout
  have hwin : ∀ oc ∈ scanOutstanding sch sub st task,
      now - tableDispatchTime st₁.cells task.file_hash oc.1 <
        sch.serviceTimeout oc.1 := by
    intro oc hoc
    rw [hc]
    simp only [dispatchOutstanding]
    exact dispatchFold_window sch now task Htm
      (scanOutstanding sch sub st task) (scanResult sch sub st task).cells
      st.dispatchCount [] oc hoc
  have hskip : dispatchOutstanding sch now task
      (scanOutstanding sch sub st task) st₁.cells st₁.dispatchCount =
      (st₁.cells, st₁.dispatchCount, []) := by
    simp only [dispatchOutstanding]
    exact dispatchFold_all_skip sch now task
      (scanOutstanding sch sub st task) st₁.cells st₁.dispatchCount [] hwin
  have ho2 : scanOutstanding sch sub st₁ task =
      scanOutstanding sch sub st task := by
    show (scanResult sch sub st₁ task).outstanding = _
    rw [hscan2]
    rfl
  have hcells2 : (scanResult sch sub st₁ task).cells = st₁.cells := by
    rw [hscan2]
  have hfc2 : (scanResult sch sub st₁ task).finCount = st₁.finishedCount := by
    rw [hscan2]
  rw [dispatchFileCore_outstanding_eq sch now task sub st₁ hout2]
  simp only [dispatchTable, ho2, hcells2, hfc2, hskip]

/-- Re-running `dispatch_file`'s core against the output of a run that found
every service finished leaves the table untouched. -/
theorem dispatchFileCore_table_stable_done (sch : Scheduler) (now : Int)
    (task : FileTask) (sub : SubmissionRec) (st st₁ : DState)
    (hout : scanOutstanding sch sub st task = [])
    (hc : st₁.cells = (scanResult sch sub st task).cells)
    (hr : st₁.resultsStore = st.resultsStore)
    (he : st₁.errorsStore = st.errorsStore) :
    dispatchTable (dispatchFileCore sch now task sub st₁) =
      dispatchTable st₁ := by
  have hP : ScanPreserved task.file_hash (scanResult sch sub st task).cells
      (scanResult sch sub st task).cells :=
    ⟨fun _ _ => rfl, fun _ h => h⟩
  have hscan2 : scanResult sch sub st₁ task =
      { cells := st₁.cells, finCount := st₁.finishedCount, rem := 0
        outstanding := (scanResult sch sub st task).outstanding
        cleared := (scanResult sch sub st task).cleared } := by
    show scanSchedule sch sub st₁.resultsStore st₁.errorsStore task.file_hash
        (sch.buildSchedule sub task.file_type)
        { cells := st₁.cells, finCount := st₁.finishedCount, rem := 0
          outstanding := [], cleared := false } = _
    rw [hr, he, hc]
    exact scanSchedule_stable sch sub st.resultsStore st.errorsStore
      task.file_hash (scanResult sch sub st task).cells
      (scanResult sch sub st task).cells hP
      (sch.buildSchedule sub task.file_type)
      { cells := st.cells, finCount := st.finishedCount, rem := 0
        outstanding := [], cleared := false }
      st₁.finishedCount 0
      (scanEvolve_refl sch sub st.resultsStore st.errorsStore task.file_hash
        (scanResult sch sub st task).cells)
  have hout2 : scanOutstanding sch sub st₁ task = [] := by
    show (scanResult sch sub st₁ task).outstanding = []
    rw [hscan2]
    exact hout
  have hcells2 : (scanResult sch sub st₁ task).cells = st₁.cells := by
    rw [hscan2]
  have hfc2 : (scanResult sch sub st₁ task).finCount = st₁.finishedCount := by
    rw [hscan2]
  rw [dispatchFileCore_completed_eq sch now task sub st₁ hout2]
  simp only [dispatchTable, hcells2, hfc2]

/-- Running `dispatch_file`'s core twice produces the same dispatch table as
running it once, provided service timeouts are positive. -/
theorem dispatchFileCore_table_idem (sch : Scheduler) (now : Int)
    (task : FileTask) (sub : SubmissionRec) (st : DState)
    (Htm : ∀ svc, 0 < sch.serviceTimeout svc) :
    dispatchTable (dispatchFileCore sch now task sub
        (dispatchFileCore sch now task sub st)) =
      dispatchTable (dispatchFileCore sch now task sub st) := by
  by_cases hout : scanOutstanding sch sub st task ≠ []
  · exact dispatchFileCore_table_stable_out sch now task sub st
      (dispatchFileCore sch now task sub st) Htm hout
      (by rw [dispatchFileCore_outstanding_eq sch now task sub st hout])
      (by rw [dispatchFileCore_outstanding_eq sch now task sub st hout])
      (by rw [dispatchFileCore_outstanding_eq sch now task sub st hout])
  · exact dispatchFileCore_table_stable_done sch now task sub st
      (dispatchFileCore sch now task sub st) (not_not.mp hout)
      (by rw [dispatchFileCore_completed_eq sch now task sub st
        (not_not.mp hout)])
      (by rw [dispatchFileCore_completed_eq sch now task sub st
        (not_not.mp hout)])
      (by rw [dispatchFileCore_completed_eq sch now task sub st
        (not_not.mp hout)])

/-- The seeding step on a file missing from the file store. -/
theorem seedStep_miss (sub : SubmissionRec) (fs : List (String × FileRec))
    (acc : List (String × Option ErrorRec) × Nat × List FileTask)
    (fo : FileObj) (h : fs.lookup fo.sha256 = none) :
    seedStep sub fs acc fo =
      (saveAssoc acc.1 (mkUuid acc.2.1)
        (create_missing_file_error sub fo.sha256), acc.2.1 + 1, acc.2.2) := by
  simp only [seedStep, h]

/-- The seeding step on a file present in the file store. -/
theorem seedStep_hit (sub : SubmissionRec) (fs : List (String × FileRec))
    (acc : List (String × Option ErrorRec) × Nat × List FileTask)
    (fo : FileObj) (fd : FileRec) (h : fs.lookup fo.sha256 = some fd) :
    seedStep sub fs acc fo =
      (acc.1, acc.2.1,
       ({ sid := sub.sid, parent_hash := none, file_hash := fo.sha256
          file_type := fd.type, depth := 0 } : FileTask) :: acc.2.2) := by
  simp only [seedStep, h]

/-- The seeding loop never removes a task from the stack. -/
theorem seedStack_mono (sub : SubmissionRec) (fs : List (String × FileRec))
    (t : FileTask) :
    ∀ (files : List FileObj)
      (acc : List (String × Option ErrorRec) × Nat × List FileTask),
      t ∈ acc.2.2 → t ∈ (files.foldl (seedStep sub fs) acc).2.2
  | [], _, h => h
  | fo :: rest, acc, h => by
      rw [List.foldl_cons]
      apply seedStack_mono sub fs t rest
      rcases hl : fs.lookup fo.sha256 with - | fd
      · rw [seedStep_miss sub fs acc fo hl]
        exact h
      · rw [seedStep_hit sub fs acc fo fd hl]
        exact List.mem_cons_of_mem _ h

/-- The stack produced by the seeding loop does not depend on the error
store or the fresh-id counter it threads. -/
theorem seedStack_indep (sub : SubmissionRec) (fs : List (String × FileRec)) :
    ∀ (files : List FileObj) (e₁ : List (String × Option ErrorRec)) (i₁ : Nat)
      (e₂ : List (String × Option ErrorRec)) (i₂ : Nat) (ts : List FileTask),
      (files.foldl (seedStep sub fs) (e₁, i₁, ts)).2.2 =
        (files.foldl (seedStep sub fs) (e₂, i₂, ts)).2.2
  | [], _, _, _, _, _ => rfl
  | fo :: rest, e₁, i₁, e₂, i₂, ts => by
      rw [List.foldl_cons, List.foldl_cons]
      rcases hl : fs.lookup fo.sha256 with - | fd
      · rw [seedStep_miss sub fs (e₁, i₁, ts) fo hl,
          seedStep_miss sub fs (e₂, i₂, ts) fo hl]
        exact seedStack_indep sub fs rest _ _ _ _ ts
      · rw [seedStep_hit sub fs (e₁, i₁, ts) fo fd hl,
          seedStep_hit sub fs (e₂, i₂, ts) fo fd hl]
        exact seedStack_indep sub fs rest _ _ _ _ _

/-- Every submission file present in the file store seeds its depth-0
`FileTask` onto the stack. -/
theorem seedStack_mem (sub : SubmissionRec) (fs : List (String × FileRec))
    (fo : FileObj) (fd : FileRec) (hfd : fs.lookup fo.sha256 = some fd) :
    ∀ (files : List FileObj)
      (acc : List (String × Option ErrorRec) × Nat × List FileTask),
      fo ∈ files →
      ({ sid := sub.sid, parent_hash := none, file_hash := fo.sha256
         file_type := fd.type, depth := 0 } : FileTask) ∈
        (files.foldl (seedStep sub fs) acc).2.2
  | [], _, h => absurd h (List.not_mem_nil _)
  | f₀ :: rest, acc, h => by
      rw [List.foldl_cons]
      rcases List.mem_cons.mp h with he | ht
      · rw [← he, seedStep_hit sub fs acc fo fd hfd]
        apply seedStack_mono
        exact List.mem_cons_self _ _
      · exact seedStack_mem sub fs fo fd hfd rest _ ht

/-- Saving a key into an association store never empties it. -/
theorem saveAssoc_ne_nil {α : Type} (l : List (String × α)) (k : String)
    (v : α) : saveAssoc l k v ≠ [] := by
  by_cases hs : (l.lookup k).isSome
  · simp only [saveAssoc, if_pos hs]
    intro h
    rw [List.map_eq_nil_iff] at h
    rw [h] at hs
    simp [List.lookup] at hs
  · simp only [saveAssoc, if_neg hs]
    simp

/-- A walk step against an empty table always marks the file pending: the
service is either inside its timeout window or has no result. -/
theorem walkService_empty (sch : Scheduler) (res : List (String × ResultRec))
    (fs : List (String × FileRec)) (now : Int) (dl : Nat)
    (stale : Option FileObj) (task : FileTask) (w : WalkSt) (svc : String) :
    walkService sch [] res fs now dl stale task w svc =
      some { w with pending := saveAssoc w.pending task.file_hash task } := by
  simp only [walkService]
  split
  · rfl
  · rfl

/-- The service loop of the walk against an empty table: it succeeds, only
the pending map changes, and it is nonempty as soon as one service ran. -/
theorem walkServices_empty (sch : Scheduler) (res : List (String × ResultRec))
    (fs : List (String × FileRec)) (now : Int) (dl : Nat)
    (stale : Option FileObj) (task : FileTask) :
    ∀ (svcs : List String) (w : WalkSt),
      ∃ p, walkServices sch [] res fs now dl stale task svcs w =
          some { w with pending := p } ∧
        (svcs = [] → p = w.pending) ∧ (svcs ≠ [] → p ≠ [])
  | [], w => ⟨w.pending, rfl, fun _ => rfl, fun h => absurd rfl h⟩
  | svc :: rest, w => by
      obtain ⟨p, hp, hpe, hpn⟩ := walkServices_empty sch res fs now dl stale
        task rest { w with pending := saveAssoc w.pending task.file_hash task }
      refine ⟨p, ?_, fun h => absurd h (by simp), ?_⟩
      · show walkServices sch [] res fs now dl stale task (svc :: rest) w =
          some { w with pending := p }
        simp only [walkServices, walkService_empty]
        exact hp
      · intro _
        rcases Decidable.em (rest = []) with hre | hre
        · have hpw := hpe hre
          rw [hpw]
          exact saveAssoc_ne_nil _ _ _
        · exact hpn hre

/-- The unchecked-stack loop one-step equation on a nonempty schedule. -/
theorem walkAll_cons_eq (sch : Scheduler) (sub : SubmissionRec)
    (cells : List ((String × String) × StatusCell))
    (res : List (String × ResultRec)) (fs : List (String × FileRec))
    (now : Int) (dl : Nat) (stale : Option FileObj) (fuel : Nat)
    (task : FileTask) (rest : List FileTask) (w w' : WalkSt)
    (hs : sch.buildSchedule sub task.file_type ≠ [])
    (hws : walkServices sch cells res fs now dl stale task
      (sch.buildSchedule sub task.file_type).flatten
      { w with newTasks := [] } = some w') :
    walkAll sch sub cells res fs now dl stale (fuel + 1) (task :: rest) w =
      walkAll sch sub cells res fs now dl stale fuel
        (w'.newTasks ++ rest) { w' with newTasks := [] } := by
  simp only [walkAll]
  rw [if_neg hs, hws]

/-- The whole walk against an empty table: it succeeds with enough fuel,
only the pending map changes, and the pending map is nonempty whenever some
stack task has a service in its flattened schedule. -/
theorem walkAll_empty (sch : Scheduler) (sub : SubmissionRec)
    (res : List (String × ResultRec)) (fs : List (String × FileRec))
    (now : Int) (dl : Nat) (stale : Option FileObj) :
    ∀ (fuel : Nat) (stack : List FileTask) (w : WalkSt),
      stack.length < fuel → w.newTasks = [] →
      (∀ t ∈ stack, sch.buildSchedule sub t.file_type ≠ []) →
      ∃ p, walkAll sch sub [] res fs now dl stale fuel stack w =
          some { w with pending := p } ∧
        (p = w.pending ∨ p ≠ []) ∧
        (∀ t ∈ stack, (sch.buildSchedule sub t.file_type).flatten ≠ [] →
          p ≠ [])
  | 0, stack, w => fun h _ _ => absurd h (Nat.not_lt_zero _)
  | fuel + 1, [], w => fun _ _ _ =>
      ⟨w.pending, rfl, Or.inl rfl, fun t ht => absurd ht (List.not_mem_nil t)⟩
  | fuel + 1, task :: rest, w => by
      intro hlen hw hsched
      have hs : sch.buildSchedule sub task.file_type ≠ [] :=
        hsched task (List.mem_cons_self _ _)
      obtain ⟨p₁, hws, hpe, hpn⟩ := walkServices_empty sch res fs now dl stale
        task (sch.buildSchedule sub task.file_type).flatten
        { w with newTasks := [] }
      obtain ⟨p₂, hwa, hor, hlive⟩ := walkAll_empty sch sub res fs now dl stale
        fuel rest { w with newTasks := [], pending := p₁ }
        (Nat.lt_of_succ_lt_succ hlen) rfl
        (fun t ht => hsched t (List.mem_cons_of_mem _ ht))
      refine ⟨p₂, ?_, ?_, ?_⟩
      · rw [walkAll_cons_eq sch sub [] res fs now dl stale fuel task rest w _
          hs hws, hw]
        exact hwa
      · rcases hor with he | hn
        · rcases Decidable.em ((sch.buildSchedule sub task.file_type).flatten
              = []) with hfe | hfn
          · left
            rw [he]
            exact hpe hfe
          · right
            rw [he]
            exact hpn hfn
        · exact Or.inr hn
      · intro t ht hfl
        rcases List.mem_cons.mp ht with hte | htr
        · have hp₁ : p₁ ≠ [] := hpn (by rw [← hte]; exact hfl)
          rcases hor with he | hn
          · rw [he]
            exact hp₁
          · exact hn
        · exact hlive t htr hfl

/-- `dispatch_submission` on the branch with pending files. -/
theorem dispatch_submission_eq_pending (sch : Scheduler) (cfg : CoreConfig)
    (now : Int) (sub : SubmissionRec) (st : DState) (w : WalkSt)
    (hw : walkAll sch sub st.cells st.resultsStore st.filesStore now
        cfg.extractionDepthLimit sub.files.getLast?
        ((seedFiles sub st.filesStore st.errorsStore st.freshId).2.2.length +
          totalExtracted st.resultsStore + 1)
        (seedFiles sub st.filesStore st.errorsStore st.freshId).2.2
        { pending := [], encountered := sub.files.map FileObj.sha256
          newTasks := [], maxScore := none, classifications := [] } = some w)
    (hp : w.pending ≠ []) :
    dispatch_submission sch cfg now sub st =
      some { st with
        errorsStore := (seedFiles sub st.filesStore st.errorsStore
          st.freshId).1
        freshId := (seedFiles sub st.filesStore st.errorsStore st.freshId).2.1
        fileQueue := st.fileQueue ++
          w.pending.map (fun p => FileTaskMsg.v1 p.2) } := by
  simp only [dispatch_submission, hw]
  rw [if_pos hp]

/-- `dispatch_submission` on the finalize branch. -/
theorem dispatch_submission_eq_final (sch : Scheduler) (cfg : CoreConfig)
    (now : Int) (sub : SubmissionRec) (st : DState) (w : WalkSt)
    (hw : walkAll sch sub st.cells st.resultsStore st.filesStore now
        cfg.extractionDepthLimit sub.files.getLast?
        ((seedFiles sub st.filesStore st.errorsStore st.freshId).2.2.length +
          totalExtracted st.resultsStore + 1)
        (seedFiles sub st.filesStore st.errorsStore st.freshId).2.2
        { pending := [], encountered := sub.files.map FileObj.sha256
          newTasks := [], maxScore := none, classifications := [] } = some w)
    (hp : w.pending = []) :
    dispatch_submission sch cfg now sub st =
      some (finalize_submission now sub w.classifications w.maxScore
        { st with
          errorsStore := (seedFiles sub st.filesStore st.errorsStore
            st.freshId).1
          freshId := (seedFiles sub st.filesStore st.errorsStore
            st.freshId).2.1 }) := by
  simp only [dispatch_submission, hw]
  rw [if_neg (fun hn => hn hp)]

/-- `dispatch_submission` fails when the walk fails. -/
theorem dispatch_submission_eq_none (sch : Scheduler) (cfg : CoreConfig)
    (now : Int) (sub : SubmissionRec) (st : DState)
    (hw : walkAll sch sub st.cells st.resultsStore st.filesStore now
        cfg.extractionDepthLimit sub.files.getLast?
        ((seedFiles sub st.filesStore st.errorsStore st.freshId).2.2.length +
          totalExtracted st.resultsStore + 1)
        (seedFiles sub st.filesStore st.errorsStore st.freshId).2.2
        { pending := [], encountered := sub.files.map FileObj.sha256
          newTasks := [], maxScore := none, classifications := [] } = none) :
    dispatch_submission sch cfg now sub st = none := by
  simp only [dispatch_submission, hw]

/-- C9 counterexample: duplicate delivery of a `{sid}` wake-up is not
idempotent as claimed.  For a submission whose only file is missing from
the file store, against a table with a leftover cell, the first delivery
finalizes — storing an aggregate record that captures the cell — and the
second delivery re-finalizes against the now-deleted table, overwriting the
stored record with empty-table values (`file_count` 0, no results), so the
finalize outcome of processing the message twice differs from processing it
once. -/
theorem dispatch_submission_refinalize_differs :
    ∃ st' st'',
      dispatch_submission schX cfgX 0 subZ stZ = some st' ∧
      dispatch_submission schX cfgX 0 subZ st' = some st'' ∧
      st''.submissionsStore ≠ st'.submissionsStore := by
  refine ⟨_, _, rfl, rfl, ?_⟩
  decide

/-- C9 (corrected): duplicate delivery is idempotent with provisos.
(a) Re-processing a `FileTask` produces the same final dispatch table
(cells, counters, schedule cache) as processing it once, provided every
service timeout is positive: the second scan reproduces the first against
the dispatch-phase table and every re-found outstanding service sits inside
its freshly-stamped timeout window, so the dispatch loop skips them all.
(b) Re-processing a `{sid}` wake-up produces the same final table and the
same submission store, provided every file type has a nonempty schedule and
some submission file is present in the file store with a service in its
flattened schedule: after a pending-files pass the second walk is identical,
and after a finalize the second pass finds that file pending against the
deleted table and re-queues instead of re-finalizing. -/
theorem dispatch_idempotent :
    (∀ (sch : Scheduler) (now : Int) (task : FileTask) (st st' : DState),
      (∀ svc, 0 < sch.serviceTimeout svc) →
      dispatch_file sch now task st = some st' →
      ∃ st'', dispatch_file sch now task st' = some st'' ∧
        dispatchTable st'' = dispatchTable st') ∧
    (∀ (sch : Scheduler) (cfg : CoreConfig) (now : Int) (sub : SubmissionRec)
      (st st' : DState),
      (∀ ty, sch.buildSchedule sub ty ≠ []) →
      (∃ fo ∈ sub.files, ∃ fd, st.filesStore.lookup fo.sha256 = some fd ∧
        (sch.buildSchedule sub fd.type).flatten ≠ []) →
      dispatch_submission sch cfg now sub st = some st' →
      ∃ st'', dispatch_submission sch cfg now sub st' = some st'' ∧
        dispatchTable st'' = dispatchTable st' ∧
        st''.submissionsStore = st'.submissionsStore) := by
  constructor
  · intro sch now task st st' Htm hrun
    rcases hsub : st.submissionsStore.lookup task.sid with - | sub
    · have h0 : dispatch_file sch now task st = none := by
        simp only [dispatch_file, hsub]
      rw [h0] at hrun
      exact Option.noConfusion hrun
    · have h1 : dispatch_file sch now task st =
          some (dispatchFileCore sch now task sub st) := by
        simp only [dispatch_file, hsub]
      rw [h1] at hrun
      have hst := Option.some.inj hrun
      refine ⟨dispatchFileCore sch now task sub st', ?_, ?_⟩
      · have hlk : st'.submissionsStore.lookup task.sid = some sub := by
          rw [← hst, dispatchFileCore_submissions]
          exact hsub
        simp only [dispatch_file, hlk]
      · rw [← hst]
        exact dispatchFileCore_table_idem sch now task sub st Htm
  · intro sch cfg now sub st st' Hsched Hlive hrun
    rcases hw : walkAll sch sub st.cells st.resultsStore st.filesStore now
        cfg.extractionDepthLimit sub.files.getLast?
        ((seedFiles sub st.filesStore st.errorsStore st.freshId).2.2.length +
          totalExtracted st.resultsStore + 1)
        (seedFiles sub st.filesStore st.errorsStore st.freshId).2.2
        { pending := [], encountered := sub.files.map FileObj.sha256
          newTasks := [], maxScore := none, classifications := [] }
        with - | w
    · rw [dispatch_submission_eq_none sch cfg now sub st hw] at hrun
      exact Option.noConfusion hrun
    · by_cases hp : w.pending ≠ []
      · rw [dispatch_submission_eq_pending sch cfg now sub st w hw hp] at hrun
        have hco := Option.some.inj hrun
        have hfs : st'.filesStore = st.filesStore := by rw [← hco]
        have hcl : st'.cells = st.cells := by rw [← hco]
        have hrs : st'.resultsStore = st.resultsStore := by rw [← hco]
        have hstk : (seedFiles sub st'.filesStore st'.errorsStore
            st'.freshId).2.2 =
            (seedFiles sub st.filesStore st.errorsStore st.freshId).2.2 := by
          rw [hfs]
          exact seedStack_indep sub st.filesStore sub.files st'.errorsStore
            st'.freshId st.errorsStore st.freshId []
        have hw₂ : walkAll sch sub st'.cells st'.resultsStore st'.filesStore
            now cfg.extractionDepthLimit sub.files.getLast?
            ((seedFiles sub st'.filesStore st'.errorsStore
              st'.freshId).2.2.length + totalExtracted st'.resultsStore + 1)
            (seedFiles sub st'.filesStore st'.errorsStore st'.freshId).2.2
            { pending := [], encountered := sub.files.map FileObj.sha256
              newTasks := [], maxScore := none, classifications := [] } =
            some w := by
          rw [hstk, hcl, hrs, hfs]
          exact hw
        exact ⟨_, dispatch_submission_eq_pending sch cfg now sub st' w hw₂ hp,
          rfl, rfl⟩
      · have hpe : w.pending = [] := not_not.mp hp
        rw [dispatch_submission_eq_final sch cfg now sub st w hw hpe] at hrun
        have hco := Option.some.inj hrun
        have hfs : st'.filesStore = st.filesStore := by
          rw [← hco]
          rfl
        have hcl : st'.cells = [] := by
          rw [← hco]
          rfl
        have hstk : (seedFiles sub st'.filesStore st'.errorsStore
            st'.freshId).2.2 =
            (seedFiles sub st.filesStore st.errorsStore st.freshId).2.2 := by
          rw [hfs]
          exact seedStack_indep sub st.filesStore sub.files st'.errorsStore
            st'.freshId st.errorsStore st.freshId []
        obtain ⟨fo, hfo, fd, hfd, hflat⟩ := Hlive
        have hmem : ({ sid := sub.sid
                       parent_hash := none
                       file_hash := fo.sha256
                       file_type := fd.type
                       depth := 0 } : FileTask) ∈
            (seedFiles sub st'.filesStore st'.errorsStore st'.freshId).2.2 := by
          rw [hstk]
          exact seedStack_mem sub st.filesStore fo fd hfd sub.files
            (st.errorsStore, st.freshId, []) hfo
        obtain ⟨p, hwa, -, hlivep⟩ := walkAll_empty sch sub st'.resultsStore
          st'.filesStore now cfg.extractionDepthLimit sub.files.getLast?
          ((seedFiles sub st'.filesStore st'.errorsStore
            st'.freshId).2.2.length + totalExtracted st'.resultsStore + 1)
          (seedFiles sub st'.filesStore st'.errorsStore st'.freshId).2.2
          { pending := [], encountered := sub.files.map FileObj.sha256
            newTasks := [], maxScore := none, classifications := [] }
          (Nat.lt_succ_of_le (Nat.le_add_right _ _)) rfl
          (fun t _ => Hsched t.file_type)
        have hpne : p ≠ [] := hlivep
          ({ sid := sub.sid
             parent_hash := none
             file_hash := fo.sha256
             file_type := fd.type
             depth := 0 } : FileTask) hmem hflat
        have hw₂ : walkAll sch sub st'.cells st'.resultsStore st'.filesStore
            now cfg.extractionDepthLimit sub.files.getLast?
            ((seedFiles sub st'.filesStore st'.errorsStore
              st'.freshId).2.2.length + totalExtracted st'.resultsStore + 1)
            (seedFiles sub st'.filesStore st'.errorsStore st'.freshId).2.2
            { pending := [], encountered := sub.files.map FileObj.sha256
              newTasks := [], maxScore := none, classifications := [] } =
            some { pending := p
                   encountered := sub.files.map FileObj.sha256
                   newTasks := [], maxScore := none
                   classifications := [] } := by
          rw [hcl]
          exact hwa
        exact ⟨_, dispatch_submission_eq_pending sch cfg now sub st' _ hw₂
          hpne, rfl, rfl⟩

/-- C9 witness: both halves of the corrected idempotence statement applied
at concrete inputs — the `FileTask` half at the post-dispatch state `stW2`
(where `sA` was dispatched at time 100) and the `{sid}` half at the
pending-pass output `stB2`. -/
theorem dispatch_idempotent_witness :
    (∃ st'', dispatch_file schX 100 taskWit stW2 = some st'' ∧
      dispatchTable st'' = dispatchTable stW2) ∧
    (∃ st'', dispatch_submission schX cfgX 0 subWB stB2 = some st'' ∧
      dispatchTable st'' = dispatchTable stB2 ∧
      st''.submissionsStore = stB2.submissionsStore) :=
  ⟨dispatch_idempotent.1 schX 100 taskWit stW stW2
    (fun _ => by
      show (0 : Int) < 10
      decide)
    (by decide),
   dispatch_idempotent.2 schX cfgX 0 subWB stB stB2
    (fun ty => by
      show (if ty = "ta" then [["sA"]] else [["sB"]]) ≠ []
      split <;> simp)
    ⟨{ sha256 := "G" }, by decide, { sha256 := "G", type := "tb" }, by decide,
      by decide⟩
    (by decide)⟩

end AlCore





